import Mathlib

/-!
Verification development for the RPAL interpreter (lexer → parser → standardizer →
CSE machine).  The definitions below are a shallow embedding of the Python sources:

* `Node` embeds `src/parser/utils.py`'s `Node` (first-child / next-sibling tree;
  Python's `None` child is the constructor `Node.nil`; a node's `value` is the raw
  string stored by the parser, e.g. `"<ID:x>"`, `"<INT:10>"`, `"let"`, `"gamma"`).
* the `standardize_*` functions embed `src/standardizer/standardizer.py` — the
  Python code rewrites the tree by pointer surgery on `left`/`right` fields; here
  every mutation is rendered as the functional construction of the final tree the
  Python code leaves behind (parser-produced trees contain no sharing, so the
  translation is exact on them).
* the CSE machine (`CSEM`, `apply_rule`, …) embeds `src/cse_machine/cse_machine.py`
  and `src/cse_machine/utils.py`.
-/

/-- Tree node of the AST / standardized tree: `Node(value, left, right)` from
`src/parser/utils.py`, with `Node.nil` standing for Python's `None`. -/
inductive Node where
  | nil : Node
  | mk (value : String) (left : Node) (right : Node) : Node
deriving Repr

/-- Value of a node (`node.value`); `Node.nil` has no value in Python (any access
would crash), we return `""` which no parser node uses. -/
def Node.valueOf : Node → String
  | .nil => ""
  | .mk v _ _ => v

/-- Left child (`node.left`). -/
def Node.leftOf : Node → Node
  | .nil => .nil
  | .mk _ l _ => l

/-- Right sibling (`node.right`). -/
def Node.rightOf : Node → Node
  | .nil => .nil
  | .mk _ _ r => r

/-- Replace a node's `right` field (`node.right = r` in Python). -/
def Node.setRight : Node → Node → Node
  | .nil, _ => .nil
  | .mk v l _, r => .mk v l r

/-- Walk of a first-child chain: `Standardizer.get_all_children` collects the
nodes of the sibling chain (each element keeps its stale `right` link, which the
rewrites below overwrite where the Python code overwrites it). -/
def Node.childrenOf : Node → List Node
  | .nil => []
  | .mk v l r => .mk v l r :: childrenOf r

/-- Number of children, as counted by the `while child:` loops in the source. -/
def Node.countChildren : Node → Nat
  | .nil => 0
  | .mk _ _ r => countChildren r + 1

/-- Size measure used only for induction over trees. -/
def Node.sizeT : Node → Nat
  | .nil => 0
  | .mk _ l r => sizeT l + sizeT r + 1

/-- Rewrite of a `let` node (`Standardizer.standardize_let`):
`let (= (x, E), P)` becomes `gamma (lambda (x, P), E)`.  The Python guard
(passthrough when `node.left`, `node.left.right`, `node.left.left`,
`node.left.left.right` is `None` or `node.left.value != '='`) is the fallback
case. -/
def standardize_let : Node → Node
  | .mk "let" (.mk "=" (.mk xv xl (.mk ev el er)) (.mk pv pl pr)) sib =>
      .mk "gamma"
        (.mk "lambda" (.mk xv xl (.mk pv pl pr)) (.mk ev el er)) sib
  | n => n

/-- Rewrite of a `where` node (`Standardizer.standardize_where`):
`where (P, = (x, E))` becomes `gamma (lambda (x, P), E)`; the source also sets
`p_node.right = None`. -/
def standardize_where : Node → Node
  | .mk "where" (.mk pv pl (.mk "=" (.mk xv xl (.mk ev el er)) _)) sib =>
      .mk "gamma"
        (.mk "lambda" (.mk xv xl (.mk pv pl .nil)) (.mk ev el er)) sib
  | n => n

/-- Right-nested lambda chain built by `standardize_function_form` /
`standardize_multi_param_function` over the child list `V₁ … Vₙ E` (n ≥ 1):
`lambda(V₁, lambda(V₂, … lambda(Vₙ, E)…))`, realised in the source by
`v.right = inner` mutations. -/
def ffChainT : Node → Node
  | .nil => .nil
  | .mk ev el .nil => .mk ev el .nil
  | .mk vv vl r => .mk "lambda" (.mk vv vl (ffChainT r)) .nil

/-- Rewrite of a `function_form` node (`Standardizer.standardize_function_form`):
`function_form (P, V₁ … Vₙ, E)` becomes `= (P, lambda(V₁, … lambda(Vₙ, E)…))`.
Guard: at least three children. -/
def standardize_function_form : Node → Node
  | .mk "function_form" (.mk pv pl (.mk v2 l2 (.mk v3 l3 r3))) sib =>
      .mk "=" (.mk pv pl (ffChainT (.mk v2 l2 (.mk v3 l3 r3)))) sib
  | n => n

/-- Rewrite of a surface multi-parameter `lambda` node
(`Standardizer.standardize_multi_param_function`): `lambda (V₁ … Vₙ, E)` with
n ≥ 2 becomes right-nested single-parameter lambdas; the resulting root keeps
the original node's sibling (`lambda_node.right = node.right`).  Guard: at least
three children (a two-children lambda passes through). -/
def standardize_multi_param_function : Node → Node
  | .mk "lambda" (.mk v1 l1 (.mk v2 l2 (.mk v3 l3 r3))) sib =>
      Node.setRight (ffChainT (.mk v1 l1 (.mk v2 l2 (.mk v3 l3 r3)))) sib
  | n => n

/-- Rewrite of a `within` node (`Standardizer.standardize_within`):
`within (= (x₁, E₁), = (x₂, E₂))` becomes `= (x₂, gamma (lambda (x₁, E₂), E₁))`. -/
def standardize_within : Node → Node
  | .mk "within"
      (.mk "=" (.mk x1v x1l (.mk e1v e1l e1r))
        (.mk "=" (.mk x2v x2l (.mk e2v e2l e2r)) _)) sib =>
      .mk "="
        (.mk x2v x2l
          (.mk "gamma"
            (.mk "lambda" (.mk x1v x1l (.mk e2v e2l e2r)) (.mk e1v e1l e1r))
            .nil)) sib
  | n => n

/-- Rewrite of an `@` node (`Standardizer.standardize_at`):
`@ (E₁, N, E₂)` becomes `gamma (gamma (N, E₁), E₂)`; the source also sets
`e1_node.right = None`. -/
def standardize_at : Node → Node
  | .mk "@" (.mk e1v e1l (.mk nv nl (.mk e2v e2l e2r))) sib =>
      .mk "gamma"
        (.mk "gamma" (.mk nv nl (.mk e1v e1l .nil)) (.mk e2v e2l e2r)) sib
  | n => n

/-- Splitting step of `standardize_simultaneous_defs`: given the sibling chain of
`=`-children of an `and` node, produce the chain `x₁ … xₙ` (each `xᵢ.right`
redirected to `xᵢ₊₁`, the last to `None`) and the chain `E₁ … Eₙ` (each
`Eᵢ.right` redirected, the last keeping its own `right`).  Yields `none` when
some child is not an `=` node with two children — the source returns the node
unchanged when a child's value is not `=`, and crashes (AttributeError) when a
third or later `=`-child lacks its children; both are modelled as passthrough,
and the crashing inputs are outside every theorem below. -/
def andSplit : Node → Option (Node × Node)
  | .mk v (.mk xv xl (.mk ev el er)) .nil =>
      if v == "=" then some (.mk xv xl .nil, .mk ev el er) else none
  | .mk v (.mk xv xl (.mk ev el er)) (.mk rv rl rr) =>
      match andSplit (.mk rv rl rr) with
      | some (xc, ec) => if v == "=" then some (.mk xv xl xc, .mk ev el ec) else none
      | none => none
  | _ => none

/-- Rewrite of an `and` node (`Standardizer.standardize_simultaneous_defs`):
`and (= (x₁, E₁), …, = (xₙ, Eₙ))` becomes `= ( , (x₁ … xₙ), tau (E₁ … Eₙ))`.
Guard: at least two children, the first two shaped as binary `=` nodes. -/
def standardize_simultaneous_defs : Node → Node
  | .mk "and" (.mk c1v (.mk x1v x1l (.mk e1v e1l e1r))
      (.mk c2v (.mk x2v x2l (.mk e2v e2l e2r)) crest)) sib =>
      match andSplit (.mk c1v (.mk x1v x1l (.mk e1v e1l e1r))
          (.mk c2v (.mk x2v x2l (.mk e2v e2l e2r)) crest)) with
      | some (xc, ec) => .mk "=" (.mk "," xc (.mk "tau" ec .nil)) sib
      | none => .mk "and" (.mk c1v (.mk x1v x1l (.mk e1v e1l e1r))
          (.mk c2v (.mk x2v x2l (.mk e2v e2l e2r)) crest)) sib
  | n => n

/-- Rewrite of a `rec` node (`Standardizer.standardize_rec`):
`rec (= (x, E))` becomes `= (x, gamma (Y, lambda (x, E)))` where the outer `x`
is a fresh leaf copy (`Node(x_node.value, None, None)`). -/
def standardize_rec : Node → Node
  | .mk "rec" (.mk "=" (.mk xv xl (.mk ev el er)) _) sib =>
      .mk "="
        (.mk xv .nil
          (.mk "gamma"
            (.mk "Y" .nil (.mk "lambda" (.mk xv xl (.mk ev el er)) .nil))
            .nil)) sib
  | n => n

/-- Dispatcher `Standardizer.standardize_node`: rewrites the eight surface tags,
returns every other node unchanged. -/
def standardize_node (n : Node) : Node :=
  match n with
  | .nil => .nil
  | .mk v l r =>
    if v == "let" then standardize_let (.mk v l r)
    else if v == "where" then standardize_where (.mk v l r)
    else if v == "function_form" then standardize_function_form (.mk v l r)
    else if v == "lambda" then standardize_multi_param_function (.mk v l r)
    else if v == "within" then standardize_within (.mk v l r)
    else if v == "@" then standardize_at (.mk v l r)
    else if v == "and" then standardize_simultaneous_defs (.mk v l r)
    else if v == "rec" then standardize_rec (.mk v l r)
    else .mk v l r

/-- Post-order traversal `Standardizer.standardize_bottom_up`: standardize the
children (left and right links), then the node itself. -/
def standardize_bottom_up : Node → Node
  | .nil => .nil
  | .mk v l r => standardize_node (.mk v (standardize_bottom_up l) (standardize_bottom_up r))

/-- Exact fraction used to model Python floats (which only `/` and `**`
produce).  Machine-produced fractions always have a positive denominator.
Python float arithmetic rounds to 53 bits; this model is exact, and every
theorem below that touches a float concerns only the kind of the value or an
exactly representable result. -/
structure Frac where
  num : Int
  den : Int
deriving Repr, DecidableEq

/-- Normalized fraction from a numerator/denominator pair (denominator nonzero
at every machine use). -/
def normFrac (p q : Int) : Frac :=
  let p2 : Int := if q < 0 then -p else p
  let q2 : Int := if q < 0 then -q else q
  let g : Nat := Nat.gcd p2.natAbs q2.toNat
  if g == 0 then ⟨p2, q2⟩ else ⟨p2 / (g : Int), q2 / (g : Int)⟩

/-- Fraction of an integer. -/
def intFrac (n : Int) : Frac := ⟨n, 1⟩

/-- Addition, subtraction, multiplication on fractions (no normalization: two
integer operands keep denominator 1, so the `int` results are exact). -/
def fracAdd (a b : Frac) : Frac := ⟨a.num * b.den + b.num * a.den, a.den * b.den⟩

/-- Subtraction on fractions. -/
def fracSub (a b : Frac) : Frac := ⟨a.num * b.den - b.num * a.den, a.den * b.den⟩

/-- Multiplication on fractions. -/
def fracMul (a b : Frac) : Frac := ⟨a.num * b.num, a.den * b.den⟩

/-- Equality of fractions by cross multiplication (denominators positive). -/
def fracEq (a b : Frac) : Bool := a.num * b.den == b.num * a.den

/-- Strict order on fractions by cross multiplication. -/
def fracLt (a b : Frac) : Bool := a.num * b.den < b.num * a.den

/-- Integer power of a fraction (`x ** n`), inverted for negative exponents. -/
def fracPow (x : Frac) (n : Int) : Frac :=
  if 0 ≤ n then normFrac (x.num ^ n.toNat) (x.den ^ n.toNat)
  else normFrac (x.den ^ (-n).toNat) (x.num ^ (-n).toNat)

/-- Runtime value of the CSE machine.  The Python value stack holds plain Python
values: `int`, `bool`, `float` (only produced by `/` and `**`), `str`, `None`,
`Tuple`, `Closure`, `BuiltinFunction`, `Environment`.  Note that the literals
`nil`, `dummy` and `Y_star` are pushed as the Python *strings* `'nil'`,
`'dummy'`, `'Y_star'` (cse_machine.py lines 324–334), so they are `strV` values
here, not separate constructors.  Python floats are modelled as exact fractions
(see `Frac`).  `Closure` and `Environment` objects are
referenced through their index in the machine's `closures` / `envs` stores so
that the source's in-place mutation and aliasing of those objects is preserved. -/
inductive Value where
  | intV (n : Int)
  | boolV (b : Bool)
  | floatV (q : Frac)
  | strV (s : String)
  | noneV
  | tupleV (vs : List Value)
  | closV (cid : Nat)
  | builtinV (name : String)
  | envV (id : Nat)
deriving Repr

/-- Closure record (`src/cse_machine/utils.py`, class `Closure`): control
structure id, parameter list (raw `<ID:x>` strings as stored by the flattener),
kind (`"lambda"` or `"eta"`), captured environment (a reference, `None` until
Rule 2 assigns it). -/
structure ClosureData where
  cs_id : Nat
  params : List String
  type : String
  env : Option Nat
deriving Repr

/-- Environment record (`src/cse_machine/utils.py`, class `Environment`):
bindings dict (association list; `Environment.bind` refuses duplicate names, so
lookup order is immaterial) and optional parent.  The numeric `env_id` of the
source is the index of the record in the machine's `envs` store (ids are handed
out consecutively from 0 by `last_env_id`). -/
structure EnvData where
  bindings : List (String × Value)
  parent : Option Nat
deriving Repr

/-- Item of a control structure or of the control stack.  In the source these
are Python strings (tagged leaves `<ID:…>`/`<INT:…>`/`<STR:…>`, literal words,
operator symbols, `gamma`, `beta`, `tau_n`, `delta_<id>_t/f`) plus `Closure` and
`Environment` objects; `apply_rule` discriminates the strings by
`startswith`/equality.  Here the string forms are decoded into constructors once,
when the flattener emits them, which is equivalent because the string families
are disjoint and the parser only produces well-formed tags. -/
inductive CtrlItem where
  | idTag (name : String)
  | intTag (n : Int)
  | strTag (s : String)
  | tauTag (n : Nat)
  | deltaTag (i : Nat) (isTrue : Bool)
  | tag (v : String)
  | clos (cid : Nat)
  | envItem (id : Nat)
deriving Repr, DecidableEq

/-- Error outcomes.  Each constructor names the Python exception the source
raises on that path (`noRule` is the final `ValueError("Control stack has … No
CSE Rule to handle this.")`, `notSingle` the `ValueError` raised by `evaluate`
when the value stack does not end with exactly one value, `fuelOut` is the
model's own step budget and corresponds to non-termination). -/
inductive Err where
  | unbound (name : String)
  | typeErr (msg : String)
  | valueErr (msg : String)
  | indexErr
  | keyErr
  | attrErr
  | zeroDiv
  | floatPow
  | noRule
  | notSingle
  | fuelOut
deriving Repr, DecidableEq

/-- Python slice `s[a:-b]`, used to strip tag delimiters (`'<ID:x>'[4:-1]`,
`'<STR:"s">'[6:-2]`, …). -/
def pySlice (a b : Nat) (s : String) : String :=
  String.mk ((s.data.drop a).take (s.data.length - a - b))

/-- Decimal value of a digit string (`int(lexeme)`; the lexer's INTEGER
lexemes consist of digits only). -/
def digitsToNat : List Char → Nat → Nat
  | [], acc => acc
  | c :: cs, acc => digitsToNat cs (acc * 10 + (c.toNat - 48))

/-- Integer decoded from an `<INT:…>` payload. -/
def strToInt (s : String) : Int := (digitsToNat s.data 0 : Nat)

/-- Test `s.startswith(p)` on the character lists. -/
def pyStarts (p s : String) : Bool :=
  s.data.take p.data.length == p.data

/-- Decoding of a node value emitted into a control structure by
`generate_control_structure`'s default branch (`cs.append(node.value)`).  The
source stores the raw string and decodes it in `apply_rule` (Rule 1); decoding
at emission time is equivalent (see `CtrlItem`).  The `<INT:…>` payload is a
digit string for every parser-produced tree. -/
def decodeItem (v : String) : CtrlItem :=
  if pyStarts "<ID:" v then .idTag (pySlice 4 1 v)
  else if pyStarts "<INT:" v then .intTag (strToInt (pySlice 5 1 v))
  else if pyStarts "<STR:" v then .strTag (pySlice 6 2 v)
  else .tag v

/-- State accumulated by `generate_control_structure` across the walk:
the `last_cs_id` counter, the `control_structures` dict (association list keyed
by delta id, every id is registered once), and the store of `Closure` objects
allocated by the flattener (a delta holds *references* to these objects — the
same object the evaluator later mutates in Rule 2). -/
structure FlatSt where
  last_cs_id : Nat
  control_structures : List (Nat × List CtrlItem)
  closures : List ClosureData
deriving Repr

/-- Flattener `CSEMachine.generate_control_structure`.  Returns the items the
call appends to `cs` and the updated state.  `ws` (with siblings) is true for
ordinary calls; the `->` case severs the condition's and true branch's sibling
links before flattening them, which is exactly a call that ignores the top-level
`right` link.  Errors are the `AttributeError`s the source raises on trees whose
`lambda` lacks a bound-name child or whose `->` lacks three children (no
parser-produced tree does). -/
def generate_control_structure (ws : Bool) :
    Node → FlatSt → Except Err (List CtrlItem × FlatSt)
  | .nil, st => .ok ([], st)
  | .mk "lambda" .nil _, _ => .error .attrErr
  | .mk "lambda" (.mk lv ll lr) r, st => do
      let params := if lv == "," then (Node.childrenOf ll).map Node.valueOf else [lv]
      let cid := st.closures.length
      let lamId := st.last_cs_id
      let st1 : FlatSt :=
        { st with closures := st.closures ++ [⟨lamId, params, "lambda", none⟩],
                  last_cs_id := lamId + 1 }
      let (body, st2) ← generate_control_structure true lr st1
      let st3 : FlatSt :=
        { st2 with control_structures := st2.control_structures ++ [(lamId, body)] }
      let (sib, st4) ←
        if ws then generate_control_structure true r st3 else .ok ([], st3)
      .ok (.clos cid :: sib, st4)
  | .mk "->" (.mk cv cl (.mk tv tl (.mk fv fl fr))) r, st => do
      let (ci, st1) ← generate_control_structure false (.mk cv cl (.mk tv tl (.mk fv fl fr))) st
      let (ti, st2) ← generate_control_structure false (.mk tv tl (.mk fv fl fr)) st1
      let (fi, st3) ← generate_control_structure true (.mk fv fl fr) st2
      let tId := st3.last_cs_id
      let st4 : FlatSt :=
        { st3 with control_structures := st3.control_structures ++ [(tId, ti)],
                   last_cs_id := tId + 1 }
      let fId := st4.last_cs_id
      let st5 : FlatSt :=
        { st4 with control_structures := st4.control_structures ++ [(fId, fi)],
                   last_cs_id := fId + 1 }
      let (sib, st6) ←
        if ws then generate_control_structure true r st5 else .ok ([], st5)
      .ok (.deltaTag tId true :: .deltaTag fId false :: .tag "beta" :: ci ++ sib, st6)
  | .mk "->" _ _, _ => .error .attrErr
  | .mk v l r, st => do
      let item := if v == "tau" then .tauTag (Node.countChildren l) else decodeItem v
      let (li, st1) ← generate_control_structure true l st
      let (sib, st2) ←
        if ws then generate_control_structure true r st1 else .ok ([], st1)
      .ok (item :: (li ++ sib), st2)

/-- Numeric view used by Python's arithmetic and `==` across `int`, `bool`
(a subclass of `int`: `True` counts as 1, `False` as 0) and `float`. -/
def Value.asNum : Value → Option (Bool × Frac)
  | .intV n => some (false, intFrac n)
  | .boolV b => some (false, intFrac (if b then 1 else 0))
  | .floatV q => some (true, q)
  | _ => none

/-- Python `isinstance(v, int)`: true for `int` and for `bool` (a subclass). -/
def isInstInt : Value → Bool
  | .intV _ => true
  | .boolV _ => true
  | _ => false

/-- Python `isinstance(v, (int, float))`. -/
def isInstNum : Value → Bool
  | .intV _ => true
  | .boolV _ => true
  | .floatV _ => true
  | _ => false

/-- Python `==` restricted to the values this machine produces: numbers compare
across `int`/`bool`/`float`, strings compare by content, `None is None` holds,
and any remaining comparison (tuples, closures, built-ins, environments, mixed
kinds) is `False`.  The `Tuple`/`Closure`/`BuiltinFunction`/`Environment`
classes define no `__eq__`, so Python compares those by object identity; two
*distinct* objects compare `False`, and the identical-object case is not
distinguishable in this embedding — no claim below compares such values. -/
def pyEq (a b : Value) : Bool :=
  match a.asNum, b.asNum with
  | some (_, x), some (_, y) => fracEq x y
  | _, _ =>
    match a, b with
    | .strV s, .strV t => s == t
    | .noneV, .noneV => true
    | _, _ => false

/-- Python truthiness of a value (`bool(v)`): zero numbers, empty strings,
empty tuples and `None` are falsy; closures, built-ins and environments are
truthy (their classes define neither `__bool__` nor `__len__`, except `Tuple`
whose `__len__` makes the empty tuple falsy). -/
def pyTruthy : Value → Bool
  | .intV n => n != 0
  | .boolV b => b
  | .floatV q => q.num != 0
  | .strV s => s != ""
  | .noneV => false
  | .tupleV vs => vs.length != 0
  | .closV _ => true
  | .builtinV _ => true
  | .envV _ => true

/-- Guard of the `&`/`or`/`not` rules: `isinstance(v, bool) or v == 'true' or
v == 'false'`. -/
def isBoolish (v : Value) : Bool :=
  (match v with | .boolV _ => true | _ => false) ||
    pyEq v (.strV "true") || pyEq v (.strV "false")

/-- Built-in `Print` (`CSEMachine._builtin_print`): in the submitted source all
printing is commented out and the value is returned unchanged. -/
def _builtin_print (v : Value) : Value := v

/-- Built-in `Isinteger`: `isinstance(value, int)` — in Python this is also true
for booleans, because `bool` is a subclass of `int`. -/
def _builtin_isinteger (v : Value) : Value := .boolV (isInstInt v)

/-- Built-in `Istruthvalue`: `isinstance(value, bool)`. -/
def _builtin_istruthvalue (v : Value) : Value :=
  .boolV (match v with | .boolV _ => true | _ => false)

/-- Built-in `Isstring`: `isinstance(value, str)`.  The sentinels `nil`,
`dummy`, `Y_star` are represented by the machine as Python strings, so they
satisfy this test. -/
def _builtin_isstring (v : Value) : Value :=
  .boolV (match v with | .strV _ => true | _ => false)

/-- Built-in `Istuple`: `isinstance(value, Tuple)`. -/
def _builtin_istuple (v : Value) : Value :=
  .boolV (match v with | .tupleV _ => true | _ => false)

/-- Built-in `Isfunction`: `isinstance(value, (Closure, BuiltinFunction))`. -/
def _builtin_isfunction (v : Value) : Value :=
  .boolV (match v with | .closV _ => true | .builtinV _ => true | _ => false)

/-- Built-in `Isdummy`: `value == 'dummy'`. -/
def _builtin_isdummy (v : Value) : Value := .boolV (pyEq v (.strV "dummy"))

/-- Built-in `Stem`: first character of a nonempty string, else `None`. -/
def _builtin_stem (v : Value) : Value :=
  match v with
  | .strV s => if s.data.length > 0 then .strV (String.mk (s.data.take 1)) else .noneV
  | _ => .noneV

/-- Built-in `Stern`: rest of a nonempty string (empty string when the length is
1), and the empty string for the empty string and for non-strings. -/
def _builtin_stern (v : Value) : Value :=
  match v with
  | .strV s =>
      if s.data.length > 0 then
        if s.data.length == 1 then .strV "" else .strV (String.mk (s.data.drop 1))
      else .strV ""
  | _ => .strV ""

/-- Built-in `Conc`: concatenation of two strings, `TypeError` otherwise. -/
def _builtin_conc (s t : Value) : Except Err Value :=
  match s, t with
  | .strV a, .strV b => .ok (.strV (a ++ b))
  | _, _ => .error (.typeErr "Conc expects two strings")

/-- Built-in `ItoS`: `str(value)` for `isinstance(value, int)` — booleans pass
the test (subclass) and stringify as Python does (`str(True) = "True"`). -/
def _builtin_itos (v : Value) : Except Err Value :=
  match v with
  | .intV n => .ok (.strV (toString n))
  | .boolV b => .ok (.strV (if b then "True" else "False"))
  | _ => .error (.typeErr "ItoS expects an integer")

/-- Built-in `Order`: tuple length, 0 for every non-tuple. -/
def _builtin_order (v : Value) : Value :=
  match v with
  | .tupleV vs => .intV vs.length
  | _ => .intV 0

/-- Built-in `Null`: true for an empty `Tuple` and for Python `None`, false for
everything else — in particular for the string `'nil'` that the machine pushes
for the literal `nil`. -/
def _builtin_null (v : Value) : Value :=
  match v with
  | .tupleV vs => .boolV (vs.length == 0)
  | .noneV => .boolV true
  | _ => .boolV false

/-- Arity table of `CSEMachine.setup_builtin_functions` (−1 is variadic). -/
def builtinArity : String → Int
  | "Print" => -1
  | "Conc" => 2
  | _ => 1

/-- Dispatch `builtin_function.func(*args)` with the popped arguments in popped
order.  A call with the wrong number of arguments is Python's `TypeError`
(it can happen only for the variadic `Print`, whose implementation takes exactly
one positional argument). -/
def callBuiltin : String → List Value → Except Err Value
  | "Print", [v] => .ok (_builtin_print v)
  | "Isinteger", [v] => .ok (_builtin_isinteger v)
  | "Istruthvalue", [v] => .ok (_builtin_istruthvalue v)
  | "Isstring", [v] => .ok (_builtin_isstring v)
  | "Istuple", [v] => .ok (_builtin_istuple v)
  | "Isfunction", [v] => .ok (_builtin_isfunction v)
  | "Isdummy", [v] => .ok (_builtin_isdummy v)
  | "Stem", [v] => .ok (_builtin_stem v)
  | "Stern", [v] => .ok (_builtin_stern v)
  | "Conc", [s, t] => _builtin_conc s t
  | "ItoS", [v] => _builtin_itos v
  | "Order", [v] => .ok (_builtin_order v)
  | "Null", [v] => .ok (_builtin_null v)
  | _, _ => .error (.typeErr "bad builtin call")

/-- Bindings installed into environment 0 by `setup_builtin_functions`, in the
source's dict order. -/
def builtinBindings : List (String × Value) :=
  [("Print", .builtinV "Print"), ("Isinteger", .builtinV "Isinteger"),
   ("Istruthvalue", .builtinV "Istruthvalue"), ("Isstring", .builtinV "Isstring"),
   ("Istuple", .builtinV "Istuple"), ("Isfunction", .builtinV "Isfunction"),
   ("Isdummy", .builtinV "Isdummy"), ("Stem", .builtinV "Stem"),
   ("Stern", .builtinV "Stern"), ("Conc", .builtinV "Conc"),
   ("ItoS", .builtinV "ItoS"), ("Order", .builtinV "Order"),
   ("Null", .builtinV "Null")]

/-- State of the CSE machine (`CSEMachine.__init__`), with the object stores
that make Python's reference semantics explicit: `closures` holds every
`Closure` object ever allocated (flattener, Rule 12, Rule 13), `envs` every
`Environment` (its index is the environment's `env_id`). -/
structure CSEM where
  control_stack : List CtrlItem
  value_stack : List Value
  env_stack : List Nat
  control_structures : List (Nat × List CtrlItem)
  closures : List ClosureData
  envs : List EnvData
  last_env_id : Nat
  last_cs_id : Nat
deriving Repr

/-- Method `Environment.bind`: refuses to rebind a name that is already bound
directly in the environment (`ValueError`), otherwise adds the binding. -/
def Environment.bind (e : EnvData) (name : String) (v : Value) : Except Err EnvData :=
  if (e.bindings.lookup name).isSome then
    .error (.valueErr "Variable is already bound in this environment.")
  else .ok { e with bindings := e.bindings ++ [(name, v)] }

/-- Method `Environment.lookup`: the environment's own bindings first, then the
parent chain; `NameError` at the end of the chain.  The fuel argument bounds the
chain length (parents are always older environments, so `envs.length` suffices;
exhaustion cannot happen for machine-created chains and is reported as the same
`NameError`). -/
def Environment.lookup (envs : List EnvData) : Nat → Nat → String → Except Err Value
  | 0, _, name => .error (.unbound name)
  | fuel + 1, eid, name =>
    match envs[eid]? with
    | none => .error .keyErr
    | some e =>
      match e.bindings.lookup name with
      | some v => .ok v
      | none =>
        match e.parent with
        | some p => Environment.lookup envs fuel p name
        | none => .error (.unbound name)

/-- Numeric result constructor: Python returns `float` when either operand is a
float, `int` otherwise (for `+ - *`; the rational is integral in the `int`
case). -/
def mkNum (isFloat : Bool) (q : Frac) : Value :=
  if isFloat then .floatV (normFrac q.num q.den) else .intV q.num

/-- Operator list of Rule 6's dispatch test. -/
def binopList : List String :=
  ["gr", "ge", "ls", "le", "eq", "ne", ">", ">=", "<", "<=",
   "+", "-", "*", "/", "**", "&", "or", "aug"]

/-- Body of Rule 6 (`CSEMachine.apply_rule`, binary operators), applied to
`left` = the first value popped and `right` = the second value popped, in the
source's fixed orientation.  Arithmetic and the order comparisons require two
numbers (booleans count, being `int` subclasses); `/` is Python's true division
and always yields a float (`ZeroDivisionError` on zero); `**` yields an int for
int operands with nonnegative exponent and a float otherwise (a genuinely
fractional exponent cannot produce a rational and is reported as `floatPow`;
no claim exercises it); `eq`/`ne` use Python `==`; `&`/`or` demand boolean-ish
operands and return Python's short-circuit operand; `aug` appends to a tuple or
turns `nil` plus a value into a one-element tuple. -/
def applyBinop (operator : String) (left right : Value) : Except Err Value :=
  if operator == "+" || operator == "-" || operator == "*" ||
      operator == "/" || operator == "**" then
    match left.asNum, right.asNum with
    | some (fl, x), some (fr, y) =>
      if operator == "+" then .ok (mkNum (fl || fr) (fracAdd x y))
      else if operator == "-" then .ok (mkNum (fl || fr) (fracSub x y))
      else if operator == "*" then .ok (mkNum (fl || fr) (fracMul x y))
      else if operator == "/" then
        if y.num == 0 then .error .zeroDiv
        else .ok (.floatV (normFrac (x.num * y.den) (x.den * y.num)))
      else
        if fl || fr then
          if y.den == 1 then
            if x.num == 0 && y.num < 0 then .error .zeroDiv
            else .ok (.floatV (fracPow x y.num))
          else .error .floatPow
        else
          if 0 ≤ y.num then .ok (.intV (x.num ^ y.num.toNat))
          else if x.num == 0 then .error .zeroDiv
          else .ok (.floatV (fracPow x y.num))
    | _, _ => .error (.typeErr "(Rule 6) Expected numeric values for operator.")
  else if operator == "gr" || operator == "ge" || operator == "ls" ||
      operator == "le" || operator == ">" || operator == ">=" ||
      operator == "<" || operator == "<=" then
    match left.asNum, right.asNum with
    | some (_, x), some (_, y) =>
      if operator == "gr" || operator == ">" then .ok (.boolV (fracLt y x))
      else if operator == "ge" || operator == ">=" then .ok (.boolV (!fracLt x y))
      else if operator == "ls" || operator == "<" then .ok (.boolV (fracLt x y))
      else .ok (.boolV (!fracLt y x))
    | _, _ => .error (.typeErr "(Rule 6) Expected numeric values for operator.")
  else if operator == "eq" then .ok (.boolV (pyEq left right))
  else if operator == "ne" then .ok (.boolV (!pyEq left right))
  else if operator == "&" || operator == "or" then
    if isBoolish left && isBoolish right then
      if operator == "&" then .ok (if pyTruthy left then right else left)
      else .ok (if pyTruthy left then left else right)
    else .error (.typeErr "(Rule 6) Expected boolean values for operator.")
  else if operator == "aug" then
    if (match left with
        | .tupleV _ => true
        | .strV s => s == "nil"
        | _ => false) &&
        (match right with
         | .intV _ => true | .boolV _ => true | .strV _ => true | _ => false) then
      match left with
      | .strV _ => .ok (.tupleV [right])
      | .tupleV vs => .ok (.tupleV (vs ++ [right]))
      | _ => .error (.typeErr "(Rule 6) unreachable")
    else .error (.typeErr "(Rule 6) Expected a tuple and a string or number.")
  else .error (.valueErr "(Rule 6) Unknown operator.")

/-- Body of Rule 7 (`not` on boolean-ish values via Python `not`, `neg` on
numbers; note `not 'true'` and `not 'false'` are both `False` in Python since
nonempty strings are truthy). -/
def applyUnop (operator : String) (v : Value) : Except Err Value :=
  if operator == "not" then
    if isBoolish v then .ok (.boolV (!pyTruthy v))
    else .error (.typeErr "(Rule 7) Expected a boolean value for operator.")
  else if operator == "neg" then
    match v with
    | .intV n => .ok (.intV (-n))
    | .boolV b => .ok (.intV (-(if b then (1 : Int) else 0)))
    | .floatV q => .ok (.floatV ⟨-q.num, q.den⟩)
    | _ => .error (.typeErr "(Rule 7) Expected a numeric value for operator.")
  else .error (.valueErr "(Rule 7) Unknown operator.")

/-- Argument kinds Rule 3 keeps popping for a variadic built-in:
`isinstance(v, (int, str, bool, Tuple, Closure))`. -/
def isArgLike : Value → Bool
  | .intV _ => true
  | .boolV _ => true
  | .strV _ => true
  | .tupleV _ => true
  | .closV _ => true
  | _ => false

/-- The variadic pop loop of Rule 3. -/
def popArgsVariadic : List Value → List Value × List Value
  | [] => ([], [])
  | v :: rest =>
      if isArgLike v then
        let (a, r) := popArgsVariadic rest
        (v :: a, r)
      else ([], v :: rest)

/-- Popping a fixed number of arguments (Rule 3, `arity ≠ -1`); `none` when the
stack runs out (the source's `ValueError`). -/
def popN : Nat → List Value → Option (List Value × List Value)
  | 0, vs => some ([], vs)
  | _ + 1, [] => none
  | n + 1, v :: vs => (popN n vs).map (fun p => (v :: p.1, p.2))

/-- Rule 1, identifier case: look the name up through the top environment's
chain and push the value. -/
def rule1_name (m : CSEM) (name : String) (cs : List CtrlItem) : Except Err CSEM :=
  match m.env_stack with
  | [] => .error .indexErr
  | eid :: _ =>
    match Environment.lookup m.envs m.envs.length eid name with
    | .ok v => .ok { m with control_stack := cs, value_stack := v :: m.value_stack }
    | .error e => .error e

/-- Rule 2 (stack a lambda): `control_stack_top.env = self.env_stack[-1]` —
the source mutates the `Closure` object *in place* (the very object stored in
the delta body) and pushes that same object onto the value stack; here the
mutation is the `List.set` on the closure store, visible through every alias. -/
def rule2 (m : CSEM) (cid : Nat) (cs : List CtrlItem) : Except Err CSEM :=
  match m.env_stack with
  | [] => .error .indexErr
  | eid :: _ =>
    match m.closures[cid]? with
    | none => .error .keyErr
    | some c =>
      .ok { m with control_stack := cs,
                   closures := m.closures.set cid { c with env := some eid },
                   value_stack := .closV cid :: m.value_stack }

/-- Rule 3 (apply a built-in): pop the arguments (all argument-like values for
arity −1, exactly `arity` values otherwise), call the implementation with them
in popped order, push the result. -/
def rule3 (m : CSEM) (name : String) (cs : List CtrlItem) (vrest : List Value) :
    Except Err CSEM :=
  if builtinArity name == -1 then
    match callBuiltin name (popArgsVariadic vrest).1 with
    | .ok res =>
      .ok { m with control_stack := cs, value_stack := res :: (popArgsVariadic vrest).2 }
    | .error e => .error e
  else
    match popN (builtinArity name).toNat vrest with
    | none => .error (.valueErr "(Rule 3) Not enough arguments for function.")
    | some p =>
      match callBuiltin name p.1 with
      | .ok res => .ok { m with control_stack := cs, value_stack := res :: p.2 }
      | .error e => .error e

/-- Pairwise parameter binding of Rule 4's tuple-unpacking branch (the lengths
are equal when this is called; each raw `<ID:x>` parameter is stripped with the
source's `params[i][4:-1]`). -/
def bindPairs (e : EnvData) : List String → List Value → Except Err EnvData
  | [], _ => .ok e
  | _ :: _, [] => .ok e
  | p :: ps, v :: vs =>
    match Environment.bind e (pySlice 4 1 p) v with
    | .ok e2 => bindPairs e2 ps vs
    | .error er => .error er

/-- Parameter binding of Rule 4's non-tuple branch: pop one value per
parameter while the value stack lasts; parameters beyond the stack are silently
skipped (`if i < len(self.value_stack)`). -/
def bindAvail (e : EnvData) : List String → List Value → Except Err (EnvData × List Value)
  | [], vs => .ok (e, vs)
  | _ :: _, [] => .ok (e, [])
  | p :: ps, v :: vs =>
    match Environment.bind e (pySlice 4 1 p) v with
    | .ok e2 => bindAvail e2 ps vs
    | .error er => .error er

/-- Common tail of Rule 4: push the new environment (id `next`) onto the stores
and stacks and splice the closure's delta body onto the control stack. -/
def rule4_finish (m : CSEM) (c : ClosureData) (cs : List CtrlItem) (next : Nat)
    (newEnv : EnvData) (remaining : List Value) : Except Err CSEM :=
  match m.control_structures.lookup c.cs_id with
  | none => .error .keyErr
  | some body =>
    .ok { m with control_stack := body.reverse ++ (.envItem next :: cs),
                 value_stack := .envV next :: remaining,
                 env_stack := next :: m.env_stack,
                 envs := m.envs ++ [newEnv],
                 last_env_id := next }

/-- Rule 4 (and 11): apply a lambda closure.  A tuple on top of the value stack
is bound whole to a single parameter, or unpacked across an n-ary parameter
list (lengths must match); otherwise one value is popped per parameter. -/
def rule4 (m : CSEM) (c : ClosureData) (cs : List CtrlItem) (vrest : List Value) :
    Except Err CSEM :=
  let next := m.last_env_id + 1
  match vrest with
  | [] => .error .indexErr
  | v :: rest =>
    match v with
    | .tupleV tvs =>
      (match c.params with
       | [p] =>
         match Environment.bind ⟨[], c.env⟩ (pySlice 4 1 p) (.tupleV tvs) with
         | .ok newEnv => rule4_finish m c cs next newEnv rest
         | .error er => .error er
       | _ =>
         if tvs.length != c.params.length then
           .error (.valueErr "(Rule 4) Tuple length does not match number of parameters.")
         else
           match bindPairs ⟨[], c.env⟩ c.params tvs with
           | .ok newEnv => rule4_finish m c cs next newEnv rest
           | .error er => .error er)
    | _ =>
      match bindAvail ⟨[], c.env⟩ c.params (v :: rest) with
      | .ok p => rule4_finish m c cs next p.1 p.2
      | .error er => .error er

/-- Rule 5 (exit environment): drop the marker from the control stack, pop the
environment stack, and remove the environment marker sitting under the top
value of the value stack. -/
def rule5 (m : CSEM) (cs : List CtrlItem) : Except Err CSEM :=
  match m.env_stack with
  | [] => .error .indexErr
  | _ :: es =>
    match m.value_stack with
    | a :: b :: rest =>
      match b with
      | .envV _ => .ok { m with control_stack := cs, env_stack := es,
                                value_stack := a :: rest }
      | _ => .error (.valueErr "(Rule 5) Expected an environment on the value stack.")
    | _ => .error .indexErr

/-- Rule 6 (binary operators): pop two values, `left` first, `right` second. -/
def rule6 (m : CSEM) (operator : String) (cs : List CtrlItem) : Except Err CSEM :=
  match m.value_stack with
  | left :: right :: rest =>
    match applyBinop operator left right with
    | .ok res => .ok { m with control_stack := cs, value_stack := res :: rest }
    | .error e => .error e
  | _ => .error (.valueErr "(Rule 6) Not enough values on the value stack.")

/-- Rule 7 (unary operators). -/
def rule7 (m : CSEM) (operator : String) (cs : List CtrlItem) : Except Err CSEM :=
  match m.value_stack with
  | v :: rest =>
    match applyUnop operator v with
    | .ok res => .ok { m with control_stack := cs, value_stack := res :: rest }
    | .error e => .error e
  | _ => .error (.valueErr "(Rule 7) Not enough values on the value stack.")

/-- Rule 8 (conditional `beta`): pop the condition value; on a truthy
(`== True` or `== 'true'`) value discard the false delta reference and splice
the true delta's body, mirrored for false.  The references are taken
positionally from the control stack exactly as the source pops them. -/
def rule8 (m : CSEM) (cs : List CtrlItem) : Except Err CSEM :=
  match m.value_stack with
  | [] => .error .indexErr
  | v :: vals =>
    match v with
    | .noneV => .error (.valueErr "(Rule 8) Expected a boolean value for conditional evaluation.")
    | _ =>
      if pyEq v (.boolV true) || pyEq v (.strV "true") then
        match cs with
        | _ :: dt :: rest =>
          (match dt with
           | .deltaTag i _ =>
             match m.control_structures.lookup i with
             | some body =>
               .ok { m with control_stack := body.reverse ++ rest, value_stack := vals }
             | none => .error .keyErr
           | _ => .error (.typeErr "(Rule 8) bad delta reference"))
        | _ => .error .indexErr
      else if pyEq v (.boolV false) || pyEq v (.strV "false") then
        match cs with
        | df :: rest1 =>
          (match df with
           | .deltaTag i _ =>
             (match rest1 with
              | _ :: rest2 =>
                match m.control_structures.lookup i with
                | some body =>
                  .ok { m with control_stack := body.reverse ++ rest2, value_stack := vals }
                | none => .error .keyErr
              | [] => .error .indexErr)
           | _ => .error (.typeErr "(Rule 8) bad delta reference"))
        | [] => .error .indexErr
      else .error (.valueErr "(Rule 8) Unexpected error occured while evaluatind conditional.")

/-- Rule 9 (tuple formation): pop `n` values and push the tuple holding them in
popped order (first popped = first element). -/
def rule9 (m : CSEM) (n : Nat) (cs : List CtrlItem) : Except Err CSEM :=
  if m.value_stack.length < n then
    .error (.valueErr "(Rule 9) Not enough values on the value stack for tuple formation.")
  else
    .ok { m with control_stack := cs,
                 value_stack := .tupleV (m.value_stack.take n) :: m.value_stack.drop n }

/-- Rule 10 (tuple indexing, 1-based; the index passes `isinstance(_, int)`, so
a boolean index is its 0/1 value `int(index)`). -/
def pyIndexOf (idxv : Value) : Int :=
  match idxv with
  | .intV n => n
  | .boolV b => if b then 1 else 0
  | _ => 0

/-- Body of Rule 10 (continued): the popped 1-based index converted to 0-based. -/
def rule10 (m : CSEM) (tvs : List Value) (idxv : Value) (rest : List Value)
    (cs : List CtrlItem) : Except Err CSEM :=
  if pyIndexOf idxv - 1 < 0 || (tvs.length : Int) ≤ pyIndexOf idxv - 1 then .error .indexErr
  else .ok { m with control_stack := cs,
                    value_stack := tvs.getD (pyIndexOf idxv - 1).toNat .noneV :: rest }

/-- Rule 12 (apply `Y`): replace the closure under `Y_star` by a fresh `eta`
closure with the same fields. -/
def rule12 (m : CSEM) (cs : List CtrlItem) (vrest : List Value) : Except Err CSEM :=
  match vrest with
  | [] => .error .indexErr
  | w :: rest =>
    match w with
    | .closV cid =>
      match m.closures[cid]? with
      | none => .error .keyErr
      | some c =>
        .ok { m with control_stack := cs,
                     closures := m.closures ++ [⟨c.cs_id, c.params, "eta", c.env⟩],
                     value_stack := .closV m.closures.length :: rest }
    | _ => .error (.valueErr "(Rule 12) Expected a lambda closure on the value stack.")

/-- Rule 13 (unfold `eta`): leave the `gamma` in place, push one more `gamma`,
and push a fresh `lambda` closure with the eta's fields above the eta. -/
def rule13 (m : CSEM) (c : ClosureData) : Except Err CSEM :=
  .ok { m with control_stack := .tag "gamma" :: m.control_stack,
               closures := m.closures ++ [⟨c.cs_id, c.params, "lambda", c.env⟩],
               value_stack := .closV m.closures.length :: m.value_stack }

/-- Dispatch of the `gamma` control item over the top of the value stack, in
the source's guard order: Rule 3 (built-in), Rule 4 (lambda closure), Rule 10
(tuple + int below — evaluating `value_stack[-1]`/`[-2]` raises `IndexError`
on a too-short stack), Rule 12 (`Y_star`), Rule 13 (eta closure), else the
final `ValueError`. -/
def ruleGamma (m : CSEM) (cs : List CtrlItem) : Except Err CSEM :=
  match m.value_stack with
  | [] => .error .indexErr
  | vtop :: vrest =>
    match vtop with
    | .builtinV name => rule3 m name cs vrest
    | .closV cid =>
      (match m.closures[cid]? with
       | none => .error .keyErr
       | some c =>
         if c.type == "lambda" then rule4 m c cs vrest
         else if c.type == "eta" then rule13 m c
         else .error .noRule)
    | .tupleV tvs =>
      (match vrest with
       | [] => .error .indexErr
       | iv :: rest => if isInstInt iv then rule10 m tvs iv rest cs else .error .noRule)
    | .strV s => if s == "Y_star" then rule12 m cs vrest else .error .noRule
    | _ => .error .noRule

/-- One step of `CSEMachine.apply_rule`, dispatching on the top of the control
stack (and, for `gamma`, the value stack) in the source's `elif` order. -/
def apply_rule (m : CSEM) : Except Err CSEM :=
  match m.control_stack with
  | [] => .error .noRule
  | top :: cs =>
    match top with
    | .idTag name => rule1_name m name cs
    | .intTag n =>
      .ok { m with control_stack := cs, value_stack := .intV n :: m.value_stack }
    | .strTag s =>
      .ok { m with control_stack := cs, value_stack := .strV s :: m.value_stack }
    | .tauTag n => rule9 m n cs
    | .deltaTag _ _ => .error .noRule
    | .clos cid => rule2 m cid cs
    | .envItem _ => rule5 m cs
    | .tag v =>
      if v == "true" then
        .ok { m with control_stack := cs, value_stack := .boolV true :: m.value_stack }
      else if v == "false" then
        .ok { m with control_stack := cs, value_stack := .boolV false :: m.value_stack }
      else if v == "nil" then
        .ok { m with control_stack := cs, value_stack := .strV "nil" :: m.value_stack }
      else if v == "Y_star" then
        .ok { m with control_stack := cs, value_stack := .strV "Y_star" :: m.value_stack }
      else if v == "dummy" then
        .ok { m with control_stack := cs, value_stack := .strV "dummy" :: m.value_stack }
      else if v == "gamma" then ruleGamma m cs
      else if binopList.contains v then rule6 m v cs
      else if v == "not" || v == "neg" then rule7 m v cs
      else if v == "beta" then rule8 m cs
      else .error .noRule

/-- Machine construction (`CSEMachine.__init__` / `initiate` /
`setup_control_structures`): flatten the standardized tree into deltas starting
from `last_cs_id = 1`, register delta 0, push the primitive environment marker
and delta 0's body onto the control stack, the marker onto the value stack. -/
def initCSEM (st : Node) : Except Err CSEM := do
  let p ← generate_control_structure true st ⟨1, [], []⟩
  .ok { control_stack := p.1.reverse ++ [.envItem 0],
        value_stack := [.envV 0],
        env_stack := [0],
        control_structures := p.2.control_structures ++ [(0, p.1)],
        closures := p.2.closures,
        envs := [⟨builtinBindings, none⟩],
        last_env_id := 0,
        last_cs_id := p.2.last_cs_id }

/-- The `while self.control_stack:` loop of `CSEMachine.evaluate`, with a step
budget (`fuelOut` corresponds to non-termination, never to a source error). -/
def evalSteps : Nat → CSEM → Except Err CSEM
  | 0, _ => .error .fuelOut
  | fuel + 1, m =>
    match m.control_stack with
    | [] => .ok m
    | _ =>
      match apply_rule m with
      | .ok m2 => evalSteps fuel m2
      | .error e => .error e

/-- Tail of `CSEMachine.evaluate`: after the loop the value stack must hold
exactly one value — the program result. -/
def evaluateM (fuel : Nat) (m : CSEM) : Except Err Value :=
  match evalSteps fuel m with
  | .ok mf =>
    match mf.value_stack with
    | [v] => .ok v
    | _ => .error .notSingle
  | .error e => .error e

/-- Whole back half of the pipeline on an AST: standardize, flatten, evaluate
(the front half — lexer and parser — is outside the claims; ASTs below are
written directly in the parser's output format). -/
def interpret (fuel : Nat) (ast : Node) : Except Err Value :=
  match initCSEM (standardize_bottom_up ast) with
  | .ok m => evaluateM fuel m
  | .error e => .error e

/-- AST of `10 - 3`, as the parser emits it (`-` node over two INT leaves). -/
def prog_sub : Node := .mk "-" (.mk "<INT:10>" .nil (.mk "<INT:3>" .nil .nil)) .nil

/-- AST of the tuple expression `2, 3, 4` (a `tau` node whose children appear
in textual order). -/
def prog_tau : Node :=
  .mk "tau" (.mk "<INT:2>" .nil (.mk "<INT:3>" .nil (.mk "<INT:4>" .nil .nil))) .nil

/-- AST of `let S = "abc" in Conc (Stem S) (Stern S)` (the spec writes the
string literal with single quotes, which this lexer does not even accept —
it only recognizes double-quoted strings; the double-quoted program is the
closest accepted input).  Application is left-associative, so the body is
`gamma (gamma (Conc, gamma (Stem, S)), gamma (Stern, S))`. -/
def prog_conc : Node :=
  .mk "let"
    (.mk "="
      (.mk "<ID:S>" .nil (.mk "<STR:\"abc\">" .nil .nil))
      (.mk "gamma"
        (.mk "gamma"
          (.mk "<ID:Conc>" .nil
            (.mk "gamma" (.mk "<ID:Stem>" .nil (.mk "<ID:S>" .nil .nil)) .nil))
          (.mk "gamma" (.mk "<ID:Stern>" .nil (.mk "<ID:S>" .nil .nil)) .nil))
        .nil))
    .nil

/-- AST of `Null nil`. -/
def prog_null_nil : Node :=
  .mk "gamma" (.mk "<ID:Null>" .nil (.mk "nil" .nil .nil)) .nil

/-- AST of `Isinteger true`. -/
def prog_isint_true : Node :=
  .mk "gamma" (.mk "<ID:Isinteger>" .nil (.mk "true" .nil .nil)) .nil

/-- AST of `Isstring nil`. -/
def prog_isstr_nil : Node :=
  .mk "gamma" (.mk "<ID:Isstring>" .nil (.mk "nil" .nil .nil)) .nil

/-- AST of `Isstring dummy`. -/
def prog_isstr_dummy : Node :=
  .mk "gamma" (.mk "<ID:Isstring>" .nil (.mk "dummy" .nil .nil)) .nil

/-- AST of `6 / 2`. -/
def prog_div : Node := .mk "/" (.mk "<INT:6>" .nil (.mk "<INT:2>" .nil .nil)) .nil

/-- C3: the spec's seed scenario `let S = 'abc' in Conc (Stem S) (Stern S)`
does *not* evaluate to `abc` on this code: the arity-2 built-in `Conc` pops
both of its arguments at the first (inner) `gamma` — `Conc("a", "bc")` does
return `"abc"` — and the second `gamma` then finds the plain string `"abc"` on
top of the value stack, which no rule handles, so the machine raises the final
`ValueError` (*Stuck*).  Curried application of a two-argument built-in can
never succeed in this machine. -/
theorem c3_conc_stuck :
    interpret 200 prog_conc = .error .noRule ∧
    _builtin_conc (.strV "a") (.strV "bc") = .ok (.strV "abc") :=
  ⟨rfl, rfl⟩

/-- C4: `Null` applied to the value of the literal `nil` returns `false`, not
`true` as the spec demands: Rule 1 pushes the Python *string* `'nil'` for the
literal (and `aug` recognizes that string as the nil sentinel), but
`_builtin_null` only recognizes an empty `Tuple` or Python `None`. -/
theorem c4_null_nil_eval :
    interpret 100 prog_null_nil = .ok (.boolV false) ∧
    _builtin_null (.strV "nil") = .boolV false ∧
    _builtin_null (.tupleV []) = .boolV true ∧
    _builtin_null .noneV = .boolV true :=
  ⟨rfl, rfl, rfl, rfl⟩

/-- C5: `Isinteger` applied to a boolean returns `true`, not `false` as the
spec demands: the implementation is `isinstance(value, int)` and Python's
`bool` is a subclass of `int`. -/
theorem c5_isinteger_bool_eval :
    interpret 100 prog_isint_true = .ok (.boolV true) ∧
    (∀ b : Bool, _builtin_isinteger (.boolV b) = .boolV true) :=
  ⟨rfl, fun _ => rfl⟩

/-- C6 counterexample: `Isstring nil` evaluates to `true`, refuting the claim
that `Isstring` returns `false` on the nil sentinel (the machine represents
`nil` as the Python string `'nil'`, which `isinstance(_, str)` accepts). -/
theorem c6_counterexample :
    interpret 100 prog_isstr_nil = .ok (.boolV true) ∧
    Value.boolV true ≠ Value.boolV false :=
  ⟨rfl, by simp⟩

/-- C6 amended: `Isstring` returns true exactly on values represented as
strings; the sentinels `nil` and `dummy` are represented as the strings
`'nil'` and `'dummy'`, so `Isstring` returns `true` on them, not `false`. -/
theorem c6_isstring_amended :
    (∀ s, _builtin_isstring (.strV s) = .boolV true) ∧
    (∀ v : Value, (∃ s, v = .strV s) ∨ _builtin_isstring v = .boolV false) ∧
    interpret 100 prog_isstr_nil = .ok (.boolV true) ∧
    interpret 100 prog_isstr_dummy = .ok (.boolV true) := by
  refine ⟨fun s => rfl, ?_, rfl, rfl⟩
  intro v
  cases v with
  | strV s => exact Or.inl ⟨s, rfl⟩
  | intV n => exact Or.inr rfl
  | boolV b => exact Or.inr rfl
  | floatV q => exact Or.inr rfl
  | noneV => exact Or.inr rfl
  | tupleV vs => exact Or.inr rfl
  | closV c => exact Or.inr rfl
  | builtinV n => exact Or.inr rfl
  | envV e => exact Or.inr rfl

/-- C7: the binary operator `/` on two integers produces a Python *float*
(true division), never an integer — `6 / 2` evaluates to the float `3.0`, a
value outside the spec's list of value kinds. -/
theorem c7_div_float_eval :
    interpret 100 prog_div = .ok (.floatV ⟨3, 1⟩) ∧
    (∀ n : Int, Value.floatV ⟨3, 1⟩ ≠ Value.intV n) ∧
    (∀ a b n : Int, applyBinop "/" (.intV a) (.intV b) ≠ .ok (.intV n)) := by
  refine ⟨rfl, ?_, ?_⟩
  · intro n h
    cases h
  · intro a b n h
    by_cases hb : (intFrac b).num == 0
    · simp [applyBinop, Value.asNum, hb] at h
    · simp [applyBinop, Value.asNum, hb] at h

/-- C1: for every listed binary operator on top of the control stack, Rule 6
pops the operator, then two values with `left` = the first value popped and
`right` = the second, and applies the operator in that fixed orientation
(`applyBinop operator left right`); in particular `10 - 3` gives `left - right
= 7`, and the whole program `10 - 3` evaluates to `7`. -/
theorem c1_binop_orientation :
    (∀ operator, binopList.contains operator = true →
      ∀ (m : CSEM) (cs : List CtrlItem) (a b : Value) (rest : List Value),
        m.control_stack = .tag operator :: cs →
        m.value_stack = a :: b :: rest →
        apply_rule m = (applyBinop operator a b).map
          (fun res => { m with control_stack := cs, value_stack := res :: rest })) ∧
    applyBinop "-" (.intV 10) (.intV 3) = .ok (.intV 7) ∧
    interpret 100 prog_sub = .ok (.intV 7) := by
  refine ⟨?_, rfl, rfl⟩
  intro operator hop m cs a b rest hc hv
  have hmem : operator ∈ binopList := by simpa using hop
  fin_cases hmem <;>
    · simp [apply_rule, rule6, hc, hv, binopList]
      cases h : applyBinop _ a b <;> simp [h, Except.map]

/-- Machine state for the C1 witness: control stack `[-]`, value stack
`[10, 3]`. -/
def mC1 : CSEM :=
  { control_stack := [.tag "-"], value_stack := [.intV 10, .intV 3],
    env_stack := [0], control_structures := [], closures := [],
    envs := [⟨builtinBindings, none⟩], last_env_id := 0, last_cs_id := 1 }

/-- Witness for C1: the Rule 6 step at the concrete state `mC1`. -/
theorem c1_witness :
    apply_rule mC1 = (applyBinop "-" (.intV 10) (.intV 3)).map
      (fun res => { mC1 with control_stack := [], value_stack := [res] }) :=
  c1_binop_orientation.1 "-" (by decide) mC1 [] (.intV 10) (.intV 3) [] rfl rfl

/-- C2: the flattener emits `tau_n` *before* the items of the `tau` node's
children (whose chains are flattened in textual order), and Rule 9 pops `n`
values and pushes the tuple holding them in popped order, so the first emitted
subexpression — evaluated last — ends up first in the tuple; the expression
`2, 3, 4` evaluates to the tuple `(2, 3, 4)` in textual order. -/
theorem c2_tau_order :
    (∀ (l r : Node) (st : FlatSt),
      generate_control_structure true (.mk "tau" l r) st =
        (generate_control_structure true l st).bind (fun p =>
          (generate_control_structure true r p.2).bind (fun q =>
            .ok (.tauTag (Node.countChildren l) :: (p.1 ++ q.1), q.2)))) ∧
    (∀ (m : CSEM) (n : Nat) (cs : List CtrlItem) (pre rest : List Value),
      m.control_stack = .tauTag n :: cs →
      m.value_stack = pre ++ rest →
      pre.length = n →
      apply_rule m = .ok { m with control_stack := cs,
                                  value_stack := .tupleV pre :: rest }) ∧
    interpret 100 prog_tau = .ok (.tupleV [.intV 2, .intV 3, .intV 4]) := by
  refine ⟨fun l r st => rfl, ?_, rfl⟩
  intro m n cs pre rest hc hv hn
  have hlen : ¬ (m.value_stack.length < n) := by
    rw [hv, List.length_append, hn]
    omega
  simp [apply_rule, rule9, hc, hv, hlen, ← hn, List.take_left, List.drop_left]

/-- Machine state for the C2 witness: control stack `[tau_2]`, value stack
`[1, 2, e0]`. -/
def mC2 : CSEM :=
  { control_stack := [.tauTag 2], value_stack := [.intV 1, .intV 2, .envV 0],
    env_stack := [0], control_structures := [], closures := [],
    envs := [⟨builtinBindings, none⟩], last_env_id := 0, last_cs_id := 1 }

/-- Witness for C2: the Rule 9 step at the concrete state `mC2` keeps the two
popped values in popped order. -/
theorem c2_witness :
    apply_rule mC2 = .ok { mC2 with control_stack := [],
                                    value_stack := [.tupleV [.intV 1, .intV 2], .envV 0] } :=
  c2_tau_order.2.1 mC2 2 [] [.intV 1, .intV 2] [.envV 0] rfl rfl rfl

/-- Facts preserved by every evaluator step (shared infrastructure): the delta
table is never written after construction, environment store entries are never
modified (new environments are only appended), and every closure store entry
keeps its `cs_id`, `params` and `type` fields (Rule 2 may overwrite `env`). -/
def StoresPreserved (m m2 : CSEM) : Prop :=
  m2.control_structures = m.control_structures ∧
  (∀ (i : Nat) (d : EnvData), m.envs[i]? = some d → m2.envs[i]? = some d) ∧
  (∀ (cid : Nat) (c : ClosureData), m.closures[cid]? = some c →
    ∃ c2, m2.closures[cid]? = some c2 ∧
      c2.cs_id = c.cs_id ∧ c2.params = c.params ∧ c2.type = c.type)

/-- Appending to a list preserves every present entry. -/
lemma getElem?_append_some {α : Type} {l l2 : List α} {i : Nat} {d : α}
    (h : l[i]? = some d) : (l ++ l2)[i]? = some d := by
  have hi : i < l.length := by
    by_contra hc
    simp [List.getElem?_eq_none (Nat.le_of_not_lt hc)] at h
  rw [List.getElem?_append, if_pos hi]
  exact h

/-- Steps that do not touch the stores preserve them. -/
lemma stores_eq {m m2 : CSEM}
    (h1 : m2.control_structures = m.control_structures)
    (h2 : m2.envs = m.envs) (h3 : m2.closures = m.closures) :
    StoresPreserved m m2 := by
  refine ⟨h1, ?_, ?_⟩
  · intro i d hd
    rw [h2]
    exact hd
  · intro cid c hc
    exact ⟨c, by rw [h3]; exact hc, rfl, rfl, rfl⟩

/-- Rule 1 (name) preserves the stores. -/
lemma rule1_pres {m : CSEM} {name : String} {cs : List CtrlItem} {m2 : CSEM}
    (h : rule1_name m name cs = .ok m2) : StoresPreserved m m2 := by
  unfold rule1_name at h
  repeat' split at h
  all_goals first
    | (cases h; exact stores_eq rfl rfl rfl)
    | simp_all

/-- Rule 2 rewrites only the `env` field of one closure entry. -/
lemma rule2_pres {m : CSEM} {cid : Nat} {cs : List CtrlItem} {m2 : CSEM}
    (h : rule2 m cid cs = .ok m2) : StoresPreserved m m2 := by
  unfold rule2 at h
  split at h
  · simp_all
  · rename_i eid _ _
    split at h
    · simp_all
    · rename_i c heq
      cases h
      refine ⟨rfl, fun i d hd => hd, ?_⟩
      intro cid' c' hc'
      by_cases he : cid' = cid
      · subst he
        have hcc : c' = c := by
          rw [heq] at hc'
          exact (Option.some.inj hc').symm
        subst hcc
        have hlt : cid' < m.closures.length := by
          by_contra hbad
          simp [List.getElem?_eq_none (Nat.le_of_not_lt hbad)] at heq
        exact ⟨{ c' with env := some eid },
          by simp [List.getElem?_set_self', hlt], rfl, rfl, rfl⟩
      · exact ⟨c', by rw [List.getElem?_set_ne (by omega)]; exact hc', rfl, rfl, rfl⟩

/-- Rule 3 preserves the stores. -/
lemma rule3_pres {m : CSEM} {name : String} {cs : List CtrlItem}
    {vrest : List Value} {m2 : CSEM}
    (h : rule3 m name cs vrest = .ok m2) : StoresPreserved m m2 := by
  unfold rule3 at h
  repeat' split at h
  all_goals first
    | (cases h; exact stores_eq rfl rfl rfl)
    | simp_all

/-- The tail of Rule 4 only appends the freshly built environment. -/
lemma rule4_finish_pres {m : CSEM} {c : ClosureData} {cs : List CtrlItem}
    {next : Nat} {newEnv : EnvData} {remaining : List Value} {m2 : CSEM}
    (h : rule4_finish m c cs next newEnv remaining = .ok m2) :
    StoresPreserved m m2 := by
  unfold rule4_finish at h
  split at h
  · simp_all
  · cases h
    exact ⟨rfl, fun i d hd => getElem?_append_some hd,
      fun cid c hc => ⟨c, hc, rfl, rfl, rfl⟩⟩

/-- Rule 4 preserves the stores. -/
lemma rule4_pres {m : CSEM} {c : ClosureData} {cs : List CtrlItem}
    {vrest : List Value} {m2 : CSEM}
    (h : rule4 m c cs vrest = .ok m2) : StoresPreserved m m2 := by
  unfold rule4 at h
  repeat' split at h
  all_goals first
    | exact rule4_finish_pres h
    | simp_all

/-- Rule 5 preserves the stores. -/
lemma rule5_pres {m : CSEM} {cs : List CtrlItem} {m2 : CSEM}
    (h : rule5 m cs = .ok m2) : StoresPreserved m m2 := by
  unfold rule5 at h
  repeat' split at h
  all_goals first
    | (cases h; exact stores_eq rfl rfl rfl)
    | simp_all

/-- Rule 6 preserves the stores. -/
lemma rule6_pres {m : CSEM} {operator : String} {cs : List CtrlItem} {m2 : CSEM}
    (h : rule6 m operator cs = .ok m2) : StoresPreserved m m2 := by
  unfold rule6 at h
  repeat' split at h
  all_goals first
    | (cases h; exact stores_eq rfl rfl rfl)
    | simp_all

/-- Rule 7 preserves the stores. -/
lemma rule7_pres {m : CSEM} {operator : String} {cs : List CtrlItem} {m2 : CSEM}
    (h : rule7 m operator cs = .ok m2) : StoresPreserved m m2 := by
  unfold rule7 at h
  repeat' split at h
  all_goals first
    | (cases h; exact stores_eq rfl rfl rfl)
    | simp_all

/-- Rule 8 preserves the stores. -/
lemma rule8_pres {m : CSEM} {cs : List CtrlItem} {m2 : CSEM}
    (h : rule8 m cs = .ok m2) : StoresPreserved m m2 := by
  unfold rule8 at h
  repeat' split at h
  all_goals first
    | (cases h; exact stores_eq rfl rfl rfl)
    | simp_all

/-- Rule 9 preserves the stores. -/
lemma rule9_pres {m : CSEM} {n : Nat} {cs : List CtrlItem} {m2 : CSEM}
    (h : rule9 m n cs = .ok m2) : StoresPreserved m m2 := by
  unfold rule9 at h
  repeat' split at h
  all_goals first
    | (cases h; exact stores_eq rfl rfl rfl)
    | simp_all

/-- Rule 10 preserves the stores. -/
lemma rule10_pres {m : CSEM} {tvs : List Value} {idxv : Value}
    {rest : List Value} {cs : List CtrlItem} {m2 : CSEM}
    (h : rule10 m tvs idxv rest cs = .ok m2) : StoresPreserved m m2 := by
  unfold rule10 at h
  repeat' split at h
  all_goals first
    | (cases h; exact stores_eq rfl rfl rfl)
    | simp_all

/-- Rule 12 only appends the fresh eta closure. -/
lemma rule12_pres {m : CSEM} {cs : List CtrlItem} {vrest : List Value} {m2 : CSEM}
    (h : rule12 m cs vrest = .ok m2) : StoresPreserved m m2 := by
  unfold rule12 at h
  repeat' split at h
  all_goals first
    | (cases h; exact ⟨rfl, fun i d hd => hd,
        fun cid c hc => ⟨c, getElem?_append_some hc, rfl, rfl, rfl⟩⟩)
    | simp_all

/-- Rule 13 only appends the fresh lambda closure. -/
lemma rule13_pres {m : CSEM} {c : ClosureData} {m2 : CSEM}
    (h : rule13 m c = .ok m2) : StoresPreserved m m2 := by
  unfold rule13 at h
  cases h
  exact ⟨rfl, fun i d hd => hd,
    fun cid c hc => ⟨c, getElem?_append_some hc, rfl, rfl, rfl⟩⟩

/-- The `gamma` dispatch preserves the stores. -/
lemma ruleGamma_pres {m : CSEM} {cs : List CtrlItem} {m2 : CSEM}
    (h : ruleGamma m cs = .ok m2) : StoresPreserved m m2 := by
  unfold ruleGamma at h
  repeat' split at h
  all_goals first
    | exact rule3_pres h
    | exact rule4_pres h
    | exact rule10_pres h
    | exact rule12_pres h
    | exact rule13_pres h
    | simp_all

/-- Every successful `apply_rule` step preserves the stores: the delta table is
unchanged, existing environment entries are unchanged, and every closure entry
keeps its `cs_id`, `params` and `type`. -/
lemma apply_rule_preserves {m m2 : CSEM} (h : apply_rule m = .ok m2) :
    StoresPreserved m m2 := by
  unfold apply_rule at h
  repeat' split at h
  all_goals first
    | exact rule1_pres h
    | exact rule2_pres h
    | exact rule5_pres h
    | exact rule6_pres h
    | exact rule7_pres h
    | exact rule8_pres h
    | exact rule9_pres h
    | exact ruleGamma_pres h
    | (cases h; exact stores_eq rfl rfl rfl)
    | simp_all

/-- AST of `let g = fn x . fn y . x in let a = g 1 in let b = g 2 in a 0`:
under lexical closure semantics the result is `1` (the closure `a` captured
`x = 1`); this machine returns `2`, because the delta of `g`'s body holds one
shared `Closure` object for `fn y . x`, and stacking it during `g 2` overwrites
the environment it captured during `g 1`. -/
def prog_alias : Node :=
  .mk "let"
    (.mk "="
      (.mk "<ID:g>" .nil
        (.mk "lambda"
          (.mk "<ID:x>" .nil
            (.mk "lambda" (.mk "<ID:y>" .nil (.mk "<ID:x>" .nil .nil)) .nil))
          .nil))
      (.mk "let"
        (.mk "="
          (.mk "<ID:a>" .nil
            (.mk "gamma" (.mk "<ID:g>" .nil (.mk "<INT:1>" .nil .nil)) .nil))
          (.mk "let"
            (.mk "="
              (.mk "<ID:b>" .nil
                (.mk "gamma" (.mk "<ID:g>" .nil (.mk "<INT:2>" .nil .nil)) .nil))
              (.mk "gamma" (.mk "<ID:a>" .nil (.mk "<INT:0>" .nil .nil)) .nil))
            .nil))
        .nil))
    .nil

/-- Machine state exhibiting Rule 2's in-place mutation: the control stack
holds the closure object 0 (the same object stored in delta 2's body and
already stacked once onto the value stack with captured environment 0), and
the active environment is 1 — exactly the configuration reached inside
`prog_alias` when `g` is applied the second time. -/
def mC9 : CSEM :=
  { control_stack := [.clos 0],
    value_stack := [.closV 0, .envV 0],
    env_stack := [1, 0],
    control_structures := [(0, []), (2, [.clos 0])],
    closures := [⟨2, ["<ID:y>"], "lambda", some 0⟩],
    envs := [⟨builtinBindings, none⟩, ⟨[("x", .intV 2)], some 0⟩],
    last_env_id := 1, last_cs_id := 3 }

/-- The state after one `apply_rule` step on `mC9`. -/
def mC9after : CSEM :=
  { control_stack := [],
    value_stack := [.closV 0, .closV 0, .envV 0],
    env_stack := [1, 0],
    control_structures := [(0, []), (2, [.clos 0])],
    closures := [⟨2, ["<ID:y>"], "lambda", some 1⟩],
    envs := [⟨builtinBindings, none⟩, ⟨[("x", .intV 2)], some 0⟩],
    last_env_id := 1, last_cs_id := 3 }

/-- C9 counterexample: the evaluator step at `mC9` (Rule 2) rewrites the `env`
field of closure 0 — the very object referenced by the item list of delta 2
and by the previously stacked copy on the value stack — from environment 0 to
environment 1, so deltas are *not* immutable and a second stacking does alter
the environment captured by the earlier copy.  Observably, the program
`let g = fn x . fn y . x in let a = g 1 in let b = g 2 in a 0` returns `2`
(the second capture) instead of `1`. -/
theorem c9_counterexample :
    mC9.control_structures.lookup 2 = some [.clos 0] ∧
    mC9.value_stack.head? = some (.closV 0) ∧
    mC9.closures[0]? = some ⟨2, ["<ID:y>"], "lambda", some 0⟩ ∧
    apply_rule mC9 = .ok mC9after ∧
    mC9after.closures[0]? = some ⟨2, ["<ID:y>"], "lambda", some 1⟩ ∧
    (⟨2, ["<ID:y>"], "lambda", some 0⟩ : ClosureData) ≠ ⟨2, ["<ID:y>"], "lambda", some 1⟩ ∧
    interpret 400 prog_alias = .ok (.intV 2) := by
  refine ⟨rfl, rfl, rfl, rfl, rfl, ?_, rfl⟩
  intro hbad
  simp at hbad

/-- C9 amended: every evaluator step leaves the delta table itself unchanged
and preserves the `cs_id`, `params` and `type` fields of every closure in the
store; only the `env` field of a closure may be rewritten (by Rule 2, in
place, through every alias). -/
theorem c9_deltas_amended :
    ∀ (m m2 : CSEM), apply_rule m = .ok m2 →
      m2.control_structures = m.control_structures ∧
      (∀ (cid : Nat) (c : ClosureData), m.closures[cid]? = some c →
        ∃ c2, m2.closures[cid]? = some c2 ∧
          c2.cs_id = c.cs_id ∧ c2.params = c.params ∧ c2.type = c.type) := by
  intro m m2 h
  exact ⟨(apply_rule_preserves h).1, (apply_rule_preserves h).2.2⟩

/-- Witness for the amended C9 at the concrete step `mC9 → mC9after`. -/
theorem c9_witness :
    mC9after.control_structures = mC9.control_structures ∧
    mC9after.closures[0]?.map ClosureData.cs_id = some 2 ∧
    mC9after.closures[0]?.map ClosureData.params = some ["<ID:y>"] ∧
    mC9after.closures[0]?.map ClosureData.type = some "lambda" := by
  obtain ⟨h1, h2⟩ := c9_deltas_amended mC9 mC9after rfl
  obtain ⟨c2, hc2, hcs, hp, ht⟩ := h2 0 ⟨2, ["<ID:y>"], "lambda", some 0⟩ rfl
  refine ⟨h1, ?_, ?_, ?_⟩ <;> rw [hc2] <;> simp [hcs, hp, ht]

/-- C10: `Environment.bind` raises a `ValueError` instead of overwriting when
the name is already bound directly in the environment, and no evaluator step
ever changes an existing environment entry (new environments are only
appended, and Rule 4 fills a fresh environment before installing it). -/
theorem c10_bind_error_no_overwrite :
    (∀ (e : EnvData) (name : String) (v : Value),
      (e.bindings.lookup name).isSome = true →
      Environment.bind e name v =
        .error (.valueErr "Variable is already bound in this environment.")) ∧
    (∀ (m m2 : CSEM), apply_rule m = .ok m2 →
      ∀ (i : Nat) (d : EnvData), m.envs[i]? = some d → m2.envs[i]? = some d) := by
  constructor
  · intro e name v hs
    simp [Environment.bind, hs]
  · intro m m2 h i d hd
    exact (apply_rule_preserves h).2.1 i d hd

/-- Machine state for the C10 witness. -/
def mC10 : CSEM :=
  { control_stack := [.intTag 5], value_stack := [], env_stack := [0],
    control_structures := [], closures := [],
    envs := [⟨builtinBindings, none⟩], last_env_id := 0, last_cs_id := 1 }

/-- The state after one `apply_rule` step on `mC10`. -/
def mC10after : CSEM :=
  { control_stack := [], value_stack := [.intV 5], env_stack := [0],
    control_structures := [], closures := [],
    envs := [⟨builtinBindings, none⟩], last_env_id := 0, last_cs_id := 1 }

/-- Witness for C10: a duplicate bind errors on a concrete environment, and
the concrete step `mC10 → mC10after` keeps environment 0's record. -/
theorem c10_witness :
    Environment.bind ⟨[("x", .intV 1)], none⟩ "x" (.intV 2) =
      .error (.valueErr "Variable is already bound in this environment.") ∧
    mC10after.envs[0]? = some ⟨builtinBindings, none⟩ :=
  ⟨c10_bind_error_no_overwrite.1 ⟨[("x", .intV 1)], none⟩ "x" (.intV 2) rfl,
   c10_bind_error_no_overwrite.2 mC10 mC10after rfl 0 ⟨builtinBindings, none⟩ rfl⟩

/-- Surface tags that must not survive standardization (C8's list). -/
def surfaceTag (v : String) : Bool :=
  v == "let" || v == "where" || v == "within" || v == "rec" || v == "and" ||
    v == "function_form" || v == "@"

/-- No node of the tree carries a surface tag. -/
def noSurf : Node → Bool
  | .nil => true
  | .mk v l r => !surfaceTag v && noSurf l && noSurf r

/-- Tags a definition subtree (grammar nonterminals D/Da/Dr/Db) can carry at
its root; after standardization each becomes a binary `=` node. -/
def isDTag (v : String) : Bool :=
  v == "=" || v == "and" || v == "rec" || v == "within" || v == "function_form"

/-- Every node of a sibling chain is a definition subtree (the children of an
`and` node). -/
def dChainOk : Node → Bool
  | .nil => true
  | .mk v _ r => isDTag v && dChainOk r

/-- Root shape of an `=` node with at least two children. -/
def eqShape : Node → Bool
  | .mk v (.mk _ _ (.mk _ _ _)) _ => v == "="
  | _ => false

/-- Shape constraints the parser guarantees for a node with tag `v` and child
chain `l` (`build_tree` calls in `src/parser/parser.py`): `let` has a
definition child followed by the body; `where` a body followed by a
definition; `within` two definitions; `rec` one definition; `and` at least two
definition children; `function_form` and `@` at least three children; `=` two
children.  Other tags are unconstrained. -/
def goodShape (v : String) (l : Node) : Bool :=
  if v == "let" then
    match l with
    | .mk dv _ (.mk _ _ _) => isDTag dv
    | _ => false
  else if v == "where" then
    match l with
    | .mk _ _ (.mk dv _ _) => isDTag dv
    | _ => false
  else if v == "within" then
    match l with
    | .mk d1 _ (.mk d2 _ _) => isDTag d1 && isDTag d2
    | _ => false
  else if v == "rec" then
    match l with
    | .mk dv _ _ => isDTag dv
    | _ => false
  else if v == "and" then
    (match l with | .mk _ _ (.mk _ _ _) => true | _ => false) && dChainOk l
  else if v == "function_form" then
    match l with | .mk _ _ (.mk _ _ (.mk _ _ _)) => true | _ => false
  else if v == "@" then
    match l with | .mk _ _ (.mk _ _ (.mk _ _ _)) => true | _ => false
  else if v == "=" then
    match l with | .mk _ _ (.mk _ _ _) => true | _ => false
  else true

/-- Parser-shaped trees: every node satisfies `goodShape`. -/
def goodB : Node → Bool
  | .nil => true
  | .mk v l r => goodShape v l && goodB l && goodB r

/-- The `let` rewrite keeps the node's sibling and returns a `mk` node. -/
lemma standardize_let_shape (v : String) (l r : Node) :
    ∃ w m2, standardize_let (.mk v l r) = .mk w m2 r := by
  unfold standardize_let
  split
  · rename_i heq
    injection heq with h1 h2 h3
    subst h3
    exact ⟨_, _, rfl⟩
  · exact ⟨v, l, rfl⟩

/-- The `where` rewrite keeps the node's sibling and returns a `mk` node. -/
lemma standardize_where_shape (v : String) (l r : Node) :
    ∃ w m2, standardize_where (.mk v l r) = .mk w m2 r := by
  unfold standardize_where
  split
  · rename_i heq
    injection heq with h1 h2 h3
    subst h3
    exact ⟨_, _, rfl⟩
  · exact ⟨v, l, rfl⟩

/-- The `function_form` rewrite keeps the node's sibling and returns a `mk`
node. -/
lemma standardize_function_form_shape (v : String) (l r : Node) :
    ∃ w m2, standardize_function_form (.mk v l r) = .mk w m2 r := by
  unfold standardize_function_form
  split
  · rename_i heq
    injection heq with h1 h2 h3
    subst h3
    exact ⟨_, _, rfl⟩
  · exact ⟨v, l, rfl⟩

/-- The multi-parameter lambda rewrite keeps the node's sibling and returns a
`mk` node. -/
lemma standardize_multi_param_function_shape (v : String) (l r : Node) :
    ∃ w m2, standardize_multi_param_function (.mk v l r) = .mk w m2 r := by
  unfold standardize_multi_param_function
  split
  · rename_i heq
    injection heq with h1 h2 h3
    subst h3
    exact ⟨_, _, rfl⟩
  · exact ⟨v, l, rfl⟩

/-- The `within` rewrite keeps the node's sibling and returns a `mk` node. -/
lemma standardize_within_shape (v : String) (l r : Node) :
    ∃ w m2, standardize_within (.mk v l r) = .mk w m2 r := by
  unfold standardize_within
  split
  · rename_i heq
    injection heq with h1 h2 h3
    subst h3
    exact ⟨_, _, rfl⟩
  · exact ⟨v, l, rfl⟩

/-- The `@` rewrite keeps the node's sibling and returns a `mk` node. -/
lemma standardize_at_shape (v : String) (l r : Node) :
    ∃ w m2, standardize_at (.mk v l r) = .mk w m2 r := by
  unfold standardize_at
  split
  · rename_i heq
    injection heq with h1 h2 h3
    subst h3
    exact ⟨_, _, rfl⟩
  · exact ⟨v, l, rfl⟩

/-- The `and` rewrite keeps the node's sibling and returns a `mk` node. -/
lemma standardize_simultaneous_defs_shape (v : String) (l r : Node) :
    ∃ w m2, standardize_simultaneous_defs (.mk v l r) = .mk w m2 r := by
  unfold standardize_simultaneous_defs
  split
  · rename_i heq
    injection heq with h1 h2 h3
    subst h3
    split
    · exact ⟨_, _, rfl⟩
    · exact ⟨_, _, rfl⟩
  · exact ⟨v, l, rfl⟩

/-- The `rec` rewrite keeps the node's sibling and returns a `mk` node. -/
lemma standardize_rec_shape (v : String) (l r : Node) :
    ∃ w m2, standardize_rec (.mk v l r) = .mk w m2 r := by
  unfold standardize_rec
  split
  · rename_i heq
    injection heq with h1 h2 h3
    subst h3
    exact ⟨_, _, rfl⟩
  · exact ⟨v, l, rfl⟩

/-- `standardize_node` maps a node to a node with the same sibling. -/
lemma standardize_node_shape (v : String) (l r : Node) :
    ∃ w m2, standardize_node (.mk v l r) = .mk w m2 r := by
  show ∃ w m2,
    (if v == "let" then standardize_let (.mk v l r)
     else if v == "where" then standardize_where (.mk v l r)
     else if v == "function_form" then standardize_function_form (.mk v l r)
     else if v == "lambda" then standardize_multi_param_function (.mk v l r)
     else if v == "within" then standardize_within (.mk v l r)
     else if v == "@" then standardize_at (.mk v l r)
     else if v == "and" then standardize_simultaneous_defs (.mk v l r)
     else if v == "rec" then standardize_rec (.mk v l r)
     else .mk v l r) = .mk w m2 r
  repeat' split
  all_goals first
    | exact standardize_let_shape _ _ _
    | exact standardize_where_shape _ _ _
    | exact standardize_function_form_shape _ _ _
    | exact standardize_multi_param_function_shape _ _ _
    | exact standardize_within_shape _ _ _
    | exact standardize_at_shape _ _ _
    | exact standardize_simultaneous_defs_shape _ _ _
    | exact standardize_rec_shape _ _ _
    | exact ⟨v, l, rfl⟩

/-- `standardize_bottom_up` maps a node to a node whose sibling is the
standardization of the original sibling. -/
lemma standardize_bottom_up_mk (v : String) (l r : Node) :
    ∃ w m2, standardize_bottom_up (.mk v l r) =
      .mk w m2 (standardize_bottom_up r) :=
  standardize_node_shape v (standardize_bottom_up l) (standardize_bottom_up r)

/-- Destructor for `eqShape`. -/
lemma eqShape_elim {X : Node} (h : eqShape X = true) :
    ∃ xv xl ev el er rr, X = .mk "=" (.mk xv xl (.mk ev el er)) rr := by
  cases X with
  | nil => simp [eqShape] at h
  | mk v a rr =>
    cases a with
    | nil => simp [eqShape] at h
    | mk xv xl b =>
      cases b with
      | nil => simp [eqShape] at h
      | mk ev el er =>
        have hv : v = "=" := by simpa [eqShape] using h
        exact ⟨xv, xl, ev, el, er, rr, by rw [hv]⟩

/-- Literal surface-tag evaluations used below. -/
lemma surfaceTag_gamma : surfaceTag "gamma" = false := by decide

/-- Literal surface-tag evaluation for `lambda`. -/
lemma surfaceTag_lambda : surfaceTag "lambda" = false := by decide

/-- Literal surface-tag evaluation for `=`. -/
lemma surfaceTag_eq : surfaceTag "=" = false := by decide

/-- Literal surface-tag evaluation for `Y`. -/
lemma surfaceTag_Y : surfaceTag "Y" = false := by decide

/-- Literal surface-tag evaluation for `,`. -/
lemma surfaceTag_comma : surfaceTag "," = false := by decide

/-- Literal surface-tag evaluation for `tau`. -/
lemma surfaceTag_tau : surfaceTag "tau" = false := by decide

/-- The nested-lambda chain built by the `function_form`/`lambda` rewrites
introduces only `lambda` nodes over the chain's own subtrees. -/
lemma ffChainT_noSurf : ∀ c : Node, noSurf c = true → noSurf (ffChainT c) = true := by
  intro c
  induction c with
  | nil => intro h; exact h
  | mk v l r ihl ihr =>
    intro h
    cases r with
    | nil => simpa [ffChainT] using h
    | mk rv rl rr =>
      simp only [noSurf, Bool.and_eq_true] at h
      obtain ⟨⟨hv, hl⟩, hr⟩ := h
      have hrr : noSurf (Node.mk rv rl rr) = true := by
        simp only [noSurf, Bool.and_eq_true]
        exact hr
      simp [ffChainT, noSurf, surfaceTag_lambda, hv, hl, ihr hrr]

/-- Nodes whose tag is neither a surface tag nor `lambda` pass through
`standardize_node` unchanged. -/
lemma standardize_node_default (v : String) (L R : Node)
    (h : surfaceTag v = false) (hlam : v ≠ "lambda") :
    standardize_node (.mk v L R) = .mk v L R := by
  simp only [surfaceTag, Bool.or_eq_false_iff, beq_eq_false_iff_ne] at h
  obtain ⟨⟨⟨⟨⟨⟨h1, h2⟩, h3⟩, h4⟩, h5⟩, h6⟩, h7⟩ := h
  simp [standardize_node, h1, h2, h3, h4, h5, h6, h7, hlam]

/-- The `let` case of standardization keeps the result surface-free. -/
lemma c8_let_case (xv : String) (xl : Node) (ev : String) (el er P R : Node)
    (hn : noSurf (.mk "=" (.mk xv xl (.mk ev el er)) P) = true)
    (hP : ∃ pw pm ps, P = .mk pw pm ps)
    (hnr : noSurf R = true) :
    noSurf (standardize_node (.mk "let" (.mk "=" (.mk xv xl (.mk ev el er)) P) R)) = true := by
  obtain ⟨pw, pm, ps, rfl⟩ := hP
  simp only [noSurf, Bool.and_eq_true] at hn
  obtain ⟨⟨hA, ⟨hxv, hxl⟩, ⟨hev, hel⟩, her⟩, ⟨hpw, hpm⟩, hps⟩ := hn
  simp [standardize_node, standardize_let, noSurf, surfaceTag_gamma, surfaceTag_lambda,
    hxv, hxl, hev, hel, her, hpw, hpm, hps, hnr]

/-- The `where` case of standardization keeps the result surface-free. -/
lemma c8_where_case (pw : String) (pm : Node) (xv : String) (xl : Node)
    (ev : String) (el er dr R : Node)
    (hn : noSurf (.mk pw pm (.mk "=" (.mk xv xl (.mk ev el er)) dr)) = true)
    (hnr : noSurf R = true) :
    noSurf (standardize_node
      (.mk "where" (.mk pw pm (.mk "=" (.mk xv xl (.mk ev el er)) dr)) R)) = true := by
  simp only [noSurf, Bool.and_eq_true] at hn
  obtain ⟨⟨hpw, hpm⟩, ⟨hA, ⟨hxv, hxl⟩, ⟨hev, hel⟩, her⟩, hdr⟩ := hn
  simp [standardize_node, standardize_where, noSurf, surfaceTag_gamma, surfaceTag_lambda,
    hpw, hpm, hxv, hxl, hev, hel, her, hnr]

/-- The `within` case: surface-free and an `=` node of the right shape. -/
lemma c8_within_case (x1v : String) (x1l : Node) (e1v : String) (e1l e1r : Node)
    (x2v : String) (x2l : Node) (e2v : String) (e2l e2r ds R : Node)
    (hn : noSurf (.mk "=" (.mk x1v x1l (.mk e1v e1l e1r))
      (.mk "=" (.mk x2v x2l (.mk e2v e2l e2r)) ds)) = true)
    (hnr : noSurf R = true) :
    noSurf (standardize_node (.mk "within"
      (.mk "=" (.mk x1v x1l (.mk e1v e1l e1r))
        (.mk "=" (.mk x2v x2l (.mk e2v e2l e2r)) ds)) R)) = true ∧
    eqShape (standardize_node (.mk "within"
      (.mk "=" (.mk x1v x1l (.mk e1v e1l e1r))
        (.mk "=" (.mk x2v x2l (.mk e2v e2l e2r)) ds)) R)) = true := by
  simp only [noSurf, Bool.and_eq_true] at hn
  obtain ⟨⟨hA1, ⟨hx1, hx1l⟩, ⟨he1, he1l⟩, he1r⟩,
    ⟨hA2, ⟨hx2, hx2l⟩, ⟨he2, he2l⟩, he2r⟩, hds⟩ := hn
  constructor
  · simp [standardize_node, standardize_within, noSurf, surfaceTag_gamma,
      surfaceTag_lambda, surfaceTag_eq,
      hx1, hx1l, he1, he1l, he1r, hx2, hx2l, he2, he2l, he2r, hnr]
  · simp [standardize_node, standardize_within, eqShape]

/-- The `rec` case: surface-free and an `=` node of the right shape. -/
lemma c8_rec_case (xv : String) (xl : Node) (ev : String) (el er dr R : Node)
    (hn : noSurf (.mk "=" (.mk xv xl (.mk ev el er)) dr) = true)
    (hnr : noSurf R = true) :
    noSurf (standardize_node (.mk "rec" (.mk "=" (.mk xv xl (.mk ev el er)) dr) R)) = true ∧
    eqShape (standardize_node (.mk "rec" (.mk "=" (.mk xv xl (.mk ev el er)) dr) R)) = true := by
  simp only [noSurf, Bool.and_eq_true] at hn
  obtain ⟨⟨hA, ⟨hxv, hxl⟩, ⟨hev, hel⟩, her⟩, hdr⟩ := hn
  constructor
  · simp [standardize_node, standardize_rec, noSurf, surfaceTag_gamma,
      surfaceTag_lambda, surfaceTag_eq, surfaceTag_Y,
      hxv, hxl, hev, hel, her, hnr]
  · simp [standardize_node, standardize_rec, eqShape]

/-- The `@` case of standardization keeps the result surface-free. -/
lemma c8_at_case (e1v : String) (e1l : Node) (nv : String) (nl : Node)
    (e2v : String) (e2l e2r R : Node)
    (hn : noSurf (.mk e1v e1l (.mk nv nl (.mk e2v e2l e2r))) = true)
    (hnr : noSurf R = true) :
    noSurf (standardize_node
      (.mk "@" (.mk e1v e1l (.mk nv nl (.mk e2v e2l e2r))) R)) = true := by
  simp only [noSurf, Bool.and_eq_true] at hn
  obtain ⟨⟨he1, he1l⟩, ⟨hnv, hnl⟩, ⟨he2, he2l⟩, he2r⟩ := hn
  simp [standardize_node, standardize_at, noSurf, surfaceTag_gamma,
    he1, he1l, hnv, hnl, he2, he2l, he2r, hnr]

/-- The `and` case: surface-free and an `=` node of the right shape, given the
successful split of the standardized definition chain. -/
lemma c8_and_case (x1v : String) (x1l : Node) (e1v : String) (e1l e1r : Node)
    (x2v : String) (x2l : Node) (e2v : String) (e2l e2r crest R xc ec : Node)
    (hsplit : andSplit (.mk "=" (.mk x1v x1l (.mk e1v e1l e1r))
      (.mk "=" (.mk x2v x2l (.mk e2v e2l e2r)) crest)) = some (xc, ec))
    (hnxc : noSurf xc = true) (hnec : noSurf ec = true) (hnr : noSurf R = true) :
    noSurf (standardize_node (.mk "and"
      (.mk "=" (.mk x1v x1l (.mk e1v e1l e1r))
        (.mk "=" (.mk x2v x2l (.mk e2v e2l e2r)) crest)) R)) = true ∧
    eqShape (standardize_node (.mk "and"
      (.mk "=" (.mk x1v x1l (.mk e1v e1l e1r))
        (.mk "=" (.mk x2v x2l (.mk e2v e2l e2r)) crest)) R)) = true := by
  constructor
  · simp [standardize_node, standardize_simultaneous_defs, hsplit, noSurf,
      surfaceTag_eq, surfaceTag_comma, surfaceTag_tau, hnxc, hnec, hnr]
  · simp [standardize_node, standardize_simultaneous_defs, hsplit, eqShape]

/-- The `function_form` case: surface-free and an `=` node of the right
shape. -/
lemma c8_ff_case (aw : String) (am : Node) (bw : String) (bm : Node)
    (cw : String) (cm S R : Node)
    (hn : noSurf (.mk aw am (.mk bw bm (.mk cw cm S))) = true)
    (hnr : noSurf R = true) :
    noSurf (standardize_node
      (.mk "function_form" (.mk aw am (.mk bw bm (.mk cw cm S))) R)) = true ∧
    eqShape (standardize_node
      (.mk "function_form" (.mk aw am (.mk bw bm (.mk cw cm S))) R)) = true := by
  simp only [noSurf, Bool.and_eq_true] at hn
  obtain ⟨⟨haw, ham⟩, hrest⟩ := hn
  have hchain : noSurf (Node.mk bw bm (.mk cw cm S)) = true := by
    simp only [noSurf, Bool.and_eq_true]
    exact hrest
  have hff2 : noSurf (ffChainT (Node.mk cw cm S)) = true := by
    apply ffChainT_noSurf
    simp only [noSurf, Bool.and_eq_true]
    exact hrest.2
  constructor
  · simp [standardize_node, standardize_function_form, noSurf, surfaceTag_eq,
      surfaceTag_lambda, haw, ham, hrest.1.1, hrest.1.2, hff2, hnr]
  · simp [standardize_node, standardize_function_form, eqShape, ffChainT]

/-- The surface `lambda` case keeps the result surface-free (whether or not
the multi-parameter rewrite fires). -/
lemma c8_lambda_case (L R : Node) (hnl : noSurf L = true) (hnr : noSurf R = true) :
    noSurf (standardize_node (.mk "lambda" L R)) = true := by
  have hd : standardize_node (.mk "lambda" L R) =
      standardize_multi_param_function (.mk "lambda" L R) := by
    simp [standardize_node]
  rw [hd]
  unfold standardize_multi_param_function
  split
  · rename_i v1 l1 v2 l2 v3 l3 r3 sib heq
    injection heq with h1 h2 h3
    subst h3
    rw [h2] at hnl
    simp only [noSurf, Bool.and_eq_true] at hnl
    obtain ⟨⟨hv1, hl1⟩, hrest⟩ := hnl
    have hff3 : noSurf (ffChainT (Node.mk v3 l3 r3)) = true := by
      apply ffChainT_noSurf
      simp only [noSurf, Bool.and_eq_true]
      exact hrest.2
    simp [ffChainT, Node.setRight, noSurf, surfaceTag_lambda, hv1, hl1,
      hrest.1.1, hrest.1.2, hff3, hnr]
  · simp [noSurf, surfaceTag_lambda, hnl, hnr]

/-- Combined induction behind C8: on parser-shaped trees (`goodB`),
standardization yields a surface-free tree; definition subtrees standardize to
binary `=` nodes; and standardized definition chains split successfully into
surface-free `x`/`E` chains. -/
lemma goodB_std_aux : ∀ (N : Nat) (t : Node), t.sizeT ≤ N → goodB t = true →
    noSurf (standardize_bottom_up t) = true ∧
    (isDTag t.valueOf = true → eqShape (standardize_bottom_up t) = true) ∧
    (dChainOk t = true → t ≠ .nil →
      ∃ xc ec, andSplit (standardize_bottom_up t) = some (xc, ec) ∧
        noSurf xc = true ∧ noSurf ec = true) := by
  intro N
  induction N with
  | zero =>
    intro t hsz hg
    cases t with
    | nil =>
      refine ⟨rfl, ?_, ?_⟩
      · intro h
        simp [Node.valueOf, isDTag] at h
      · intro _ hne
        exact absurd rfl hne
    | mk v l r => simp [Node.sizeT] at hsz
  | succ N ih =>
    intro t hsz hg
    cases t with
    | nil =>
      refine ⟨rfl, ?_, ?_⟩
      · intro h
        simp [Node.valueOf, isDTag] at h
      · intro _ hne
        exact absurd rfl hne
    | mk v l r =>
      have hszl : l.sizeT ≤ N := by
        simp [Node.sizeT] at hsz
        omega
      have hszr : r.sizeT ≤ N := by
        simp [Node.sizeT] at hsz
        omega
      obtain ⟨⟨hshape, hgl⟩, hgr⟩ : (goodShape v l = true ∧ goodB l = true) ∧ goodB r = true := by
        simpa [goodB, Bool.and_eq_true] using hg
      have Hr := ih r hszr hgr
      have hunfold : standardize_bottom_up (.mk v l r) =
          standardize_node (.mk v (standardize_bottom_up l) (standardize_bottom_up r)) := rfl
      have main12 : noSurf (standardize_bottom_up (.mk v l r)) = true ∧
          (isDTag v = true → eqShape (standardize_bottom_up (.mk v l r)) = true) := by
        by_cases hv1 : v = "let"
        · subst hv1
          rcases l with _ | ⟨dv, dl, dr⟩
          · simp [goodShape] at hshape
          rcases dr with _ | ⟨pv, pl, pr⟩
          · simp [goodShape] at hshape
          have hdv : isDTag dv = true := by simpa [goodShape] using hshape
          have Hl := ih _ hszl hgl
          have heql := Hl.2.1 (by simpa [Node.valueOf] using hdv)
          obtain ⟨xv, xl, ev, el, er, rr, hXl⟩ := eqShape_elim heql
          obtain ⟨w, m2, hmkl⟩ := standardize_bottom_up_mk dv dl (.mk pv pl pr)
          have hrr : rr = standardize_bottom_up (.mk pv pl pr) := by
            have hcomb := hmkl.symm.trans hXl
            injection hcomb with a b c
            exact c.symm
          subst hrr
          constructor
          · rw [hunfold, hXl]
            obtain ⟨pw, pm, hp⟩ := standardize_bottom_up_mk pv pl pr
            exact c8_let_case xv xl ev el er _ _
              (by rw [← hXl]; exact Hl.1) ⟨pw, pm, _, hp⟩ Hr.1
          · intro hd
            simp [isDTag] at hd
        · by_cases hv2 : v = "where"
          · subst hv2
            rcases l with _ | ⟨pv0, pl0, dr⟩
            · simp [goodShape] at hshape
            rcases dr with _ | ⟨dv, dl, dr2⟩
            · simp [goodShape] at hshape
            have hdv : isDTag dv = true := by simpa [goodShape] using hshape
            have hszd : (Node.mk dv dl dr2).sizeT ≤ N := by
              simp [Node.sizeT] at hsz ⊢
              omega
            have hgd : goodB (Node.mk dv dl dr2) = true := by
              have h2 := hgl
              simp only [goodB, Bool.and_eq_true] at h2
              simpa [goodB, Bool.and_eq_true] using h2.2
            have HD := ih _ hszd hgd
            have heqd := HD.2.1 (by simpa [Node.valueOf] using hdv)
            obtain ⟨xv, xl, ev, el, er, rr, hXd⟩ := eqShape_elim heqd
            have Hl := ih _ hszl hgl
            obtain ⟨pw, pm, hmkl⟩ := standardize_bottom_up_mk pv0 pl0 (.mk dv dl dr2)
            constructor
            · rw [hunfold, hmkl, hXd]
              refine c8_where_case pw pm xv xl ev el er rr _ ?_ Hr.1
              rw [← hXd, ← hmkl]
              exact Hl.1
            · intro hd
              simp [isDTag] at hd
          · by_cases hv3 : v = "function_form"
            · subst hv3
              rcases l with _ | ⟨av, al, br⟩
              · simp [goodShape] at hshape
              rcases br with _ | ⟨bv, bl, cr⟩
              · simp [goodShape] at hshape
              rcases cr with _ | ⟨cv, cl, cr2⟩
              · simp [goodShape] at hshape
              have Hl := ih _ hszl hgl
              obtain ⟨aw, am, hmka⟩ := standardize_bottom_up_mk av al (.mk bv bl (.mk cv cl cr2))
              obtain ⟨bw, bm, hmkb⟩ := standardize_bottom_up_mk bv bl (.mk cv cl cr2)
              obtain ⟨cw, cm, hmkc⟩ := standardize_bottom_up_mk cv cl cr2
              have hc := c8_ff_case aw am bw bm cw cm
                (standardize_bottom_up cr2) (standardize_bottom_up r)
                (by rw [← hmkc, ← hmkb, ← hmka]; exact Hl.1) Hr.1
              constructor
              · rw [hunfold, hmka, hmkb, hmkc]
                exact hc.1
              · intro hd
                rw [hunfold, hmka, hmkb, hmkc]
                exact hc.2
            · by_cases hv4 : v = "lambda"
              · subst hv4
                have Hl := ih _ hszl hgl
                constructor
                · rw [hunfold]
                  exact c8_lambda_case _ _ Hl.1 Hr.1
                · intro hd
                  simp [isDTag] at hd
              · by_cases hv5 : v = "within"
                · subst hv5
                  rcases l with _ | ⟨d1v, d1l, dr⟩
                  · simp [goodShape] at hshape
                  rcases dr with _ | ⟨d2v, d2l, d2r⟩
                  · simp [goodShape] at hshape
                  obtain ⟨hd1, hd2⟩ : isDTag d1v = true ∧ isDTag d2v = true := by
                    simpa [goodShape, Bool.and_eq_true] using hshape
                  have hszd : (Node.mk d2v d2l d2r).sizeT ≤ N := by
                    simp [Node.sizeT] at hsz ⊢
                    omega
                  have hgd : goodB (Node.mk d2v d2l d2r) = true := by
                    have h2 := hgl
                    simp only [goodB, Bool.and_eq_true] at h2
                    simpa [goodB, Bool.and_eq_true] using h2.2
                  have HD := ih _ hszd hgd
                  have Hl := ih _ hszl hgl
                  have heql := Hl.2.1 (by simpa [Node.valueOf] using hd1)
                  obtain ⟨x1v, x1l, e1v, e1l, e1r, rr1, hXl⟩ := eqShape_elim heql
                  obtain ⟨w, m2, hmkl⟩ := standardize_bottom_up_mk d1v d1l (.mk d2v d2l d2r)
                  have hrr1 : rr1 = standardize_bottom_up (.mk d2v d2l d2r) := by
                    have hcomb := hmkl.symm.trans hXl
                    injection hcomb with a b c
                    exact c.symm
                  subst hrr1
                  have heqd := HD.2.1 (by simpa [Node.valueOf] using hd2)
                  obtain ⟨x2v, x2l, e2v, e2l, e2r, ds, hXd⟩ := eqShape_elim heqd
                  have hc := c8_within_case x1v x1l e1v e1l e1r x2v x2l e2v e2l e2r ds
                    (standardize_bottom_up r)
                    (by rw [← hXd, ← hXl]; exact Hl.1) Hr.1
                  constructor
                  · rw [hunfold, hXl, hXd]
                    exact hc.1
                  · intro hd
                    rw [hunfold, hXl, hXd]
                    exact hc.2
                · by_cases hv6 : v = "@"
                  · subst hv6
                    rcases l with _ | ⟨av, al, br⟩
                    · simp [goodShape] at hshape
                    rcases br with _ | ⟨bv, bl, cr⟩
                    · simp [goodShape] at hshape
                    rcases cr with _ | ⟨cv, cl, cr2⟩
                    · simp [goodShape] at hshape
                    have Hl := ih _ hszl hgl
                    obtain ⟨aw, am, hmka⟩ := standardize_bottom_up_mk av al (.mk bv bl (.mk cv cl cr2))
                    obtain ⟨bw, bm, hmkb⟩ := standardize_bottom_up_mk bv bl (.mk cv cl cr2)
                    obtain ⟨cw, cm, hmkc⟩ := standardize_bottom_up_mk cv cl cr2
                    constructor
                    · rw [hunfold, hmka, hmkb, hmkc]
                      exact c8_at_case aw am bw bm cw cm _ _
                        (by rw [← hmkc, ← hmkb, ← hmka]; exact Hl.1) Hr.1
                    · intro hd
                      simp [isDTag] at hd
                  · by_cases hv7 : v = "and"
                    · subst hv7
                      rcases l with _ | ⟨d1v, d1l, dr⟩
                      · simp [goodShape] at hshape
                      rcases dr with _ | ⟨d2v, d2l, d2r⟩
                      · simp [goodShape] at hshape
                      obtain ⟨hch1, hch2⟩ : isDTag d1v = true ∧
                          (isDTag d2v = true ∧ dChainOk d2r = true) := by
                        simpa [goodShape, dChainOk, Bool.and_eq_true] using hshape
                      have hszd : (Node.mk d2v d2l d2r).sizeT ≤ N := by
                        simp [Node.sizeT] at hsz ⊢
                        omega
                      have hgd : goodB (Node.mk d2v d2l d2r) = true := by
                        have h2 := hgl
                        simp only [goodB, Bool.and_eq_true] at h2
                        simpa [goodB, Bool.and_eq_true] using h2.2
                      have HD := ih _ hszd hgd
                      have Hl := ih _ hszl hgl
                      have heql := Hl.2.1 (by simpa [Node.valueOf] using hch1)
                      obtain ⟨x1v, x1l, e1v, e1l, e1r, rr1, hXl⟩ := eqShape_elim heql
                      obtain ⟨w, m2, hmkl⟩ := standardize_bottom_up_mk d1v d1l (.mk d2v d2l d2r)
                      have hrr1 : rr1 = standardize_bottom_up (.mk d2v d2l d2r) := by
                        have hcomb := hmkl.symm.trans hXl
                        injection hcomb with a b c
                        exact c.symm
                      subst hrr1
                      have heqd := HD.2.1 (by simpa [Node.valueOf] using hch2.1)
                      obtain ⟨x2v, x2l, e2v, e2l, e2r, crest, hXd⟩ := eqShape_elim heqd
                      have hchainl : dChainOk (Node.mk d1v d1l (.mk d2v d2l d2r)) = true := by
                        simp [dChainOk, Bool.and_eq_true, hch1, hch2.1, hch2.2]
                      obtain ⟨xc, ec, hsplit, hnxc, hnec⟩ := Hl.2.2 hchainl (by simp)
                      rw [hXl, hXd] at hsplit
                      have hc := c8_and_case x1v x1l e1v e1l e1r x2v x2l e2v e2l e2r crest
                        (standardize_bottom_up r) xc ec hsplit hnxc hnec Hr.1
                      constructor
                      · rw [hunfold, hXl, hXd]
                        exact hc.1
                      · intro hd
                        rw [hunfold, hXl, hXd]
                        exact hc.2
                    · by_cases hv8 : v = "rec"
                      · subst hv8
                        rcases l with _ | ⟨dv, dl, dr⟩
                        · simp [goodShape] at hshape
                        have hdv : isDTag dv = true := by simpa [goodShape] using hshape
                        have Hl := ih _ hszl hgl
                        have heql := Hl.2.1 (by simpa [Node.valueOf] using hdv)
                        obtain ⟨xv, xl, ev, el, er, rr, hXl⟩ := eqShape_elim heql
                        have hc := c8_rec_case xv xl ev el er rr (standardize_bottom_up r)
                          (by rw [← hXl]; exact Hl.1) Hr.1
                        constructor
                        · rw [hunfold, hXl]
                          exact hc.1
                        · intro hd
                          rw [hunfold, hXl]
                          exact hc.2
                      · -- default: no dispatch fires
                        have hsurf : surfaceTag v = false := by
                          simp [surfaceTag, hv1, hv2, hv3, hv5, hv6, hv7, hv8]
                        have hdef := standardize_node_default v
                          (standardize_bottom_up l) (standardize_bottom_up r) hsurf hv4
                        have Hl := ih _ hszl hgl
                        constructor
                        · rw [hunfold, hdef]
                          simp [noSurf, hsurf, Hl.1, Hr.1]
                        · intro hdv
                          have hveq : v = "=" := by
                            simp [isDTag, hv7, hv8, hv5, hv3] at hdv
                            simpa using hdv
                          subst hveq
                          rcases l with _ | ⟨a1, b1, cr⟩
                          · simp [goodShape] at hshape
                          rcases cr with _ | ⟨c1, d1, e1⟩
                          · simp [goodShape] at hshape
                          obtain ⟨w1, m1, hmk1⟩ := standardize_bottom_up_mk a1 b1 (.mk c1 d1 e1)
                          obtain ⟨w2, m2, hmk2⟩ := standardize_bottom_up_mk c1 d1 e1
                          rw [hunfold, hdef, hmk1, hmk2]
                          simp [eqShape]
      refine ⟨main12.1, ?_, ?_⟩
      · intro hdv
        exact main12.2 (by simpa [Node.valueOf] using hdv)
      · intro hchain hne
        obtain ⟨hdv, hchr⟩ : isDTag v = true ∧ dChainOk r = true := by
          simpa [dChainOk, Bool.and_eq_true] using hchain
        have heq2 := main12.2 hdv
        obtain ⟨xv, xl, ev, el, er, rr, hX⟩ := eqShape_elim heq2
        obtain ⟨w, m2, hmk⟩ := standardize_bottom_up_mk v l r
        have hrr : rr = standardize_bottom_up r := by
          have hcomb := hmk.symm.trans hX
          injection hcomb with a b c
          exact c.symm
        subst hrr
        have hns := main12.1
        rw [hX] at hns
        simp only [noSurf, Bool.and_eq_true] at hns
        obtain ⟨⟨hA, ⟨hxv, hxl⟩, ⟨hev, hel⟩, her⟩, hsr⟩ := hns
        rcases r with _ | ⟨rv, rl, rr2⟩
        · refine ⟨.mk xv xl .nil, .mk ev el er, ?_, ?_, ?_⟩
          · rw [hX]
            simp [standardize_bottom_up, andSplit]
          · simp [noSurf, Bool.and_eq_true, hxv, hxl]
          · simp [noSurf, Bool.and_eq_true, hev, hel, her]
        · obtain ⟨xc, ec, hsplit, hnxc, hnec⟩ := Hr.2.2 hchr (by simp)
          obtain ⟨w2, m22, hmk2⟩ := standardize_bottom_up_mk rv rl rr2
          rw [hmk2] at hsplit
          refine ⟨.mk xv xl xc, .mk ev el ec, ?_, ?_, ?_⟩
          · rw [hX, hmk2]
            simp [andSplit, hsplit]
          · simp [noSurf, Bool.and_eq_true, hxv, hxl, hnxc]
          · simp [noSurf, Bool.and_eq_true, hev, hel, hnec]

/-- C8: For every input program that parses — i.e. every AST whose nodes obey
the parser's shape discipline for the surface constructs, captured by `goodB` —
the tree produced by the bottom-up standardization pass contains no occurrence
of the surface tags let, where, within, rec, and, function_form or @
(`noSurf`): every such node is rewritten by `standardize_node`. -/
theorem c8_no_surface_tags (t : Node) (h : goodB t = true) :
    noSurf (standardize_bottom_up t) = true :=
  (goodB_std_aux t.sizeT t le_rfl h).1

theorem c8_witness :
    goodB (Node.mk "let"
      (Node.mk "=" (Node.mk "<ID:x>" .nil (Node.mk "<INT:5>" .nil .nil))
        (Node.mk "<ID:x>" .nil .nil)) .nil) = true ∧
    noSurf (standardize_bottom_up (Node.mk "let"
      (Node.mk "=" (Node.mk "<ID:x>" .nil (Node.mk "<INT:5>" .nil .nil))
        (Node.mk "<ID:x>" .nil .nil)) .nil)) = true :=
  ⟨by decide, c8_no_surface_tags _ (by decide)⟩
